import Mathlib

/-!
# Verification of the dagmar-backend identity & attendance core

Shallow embedding of the Python source (FastAPI attendance backend) into
Lean 4, together with proofs of the spec's testable properties.

Python strings are modelled as `List Char`, optional values as `Option`,
HTTP failure as `Except`-style sums, and the database session as explicit
lists of rows.  Cryptographic primitives (argon2 hashing, HMAC) are
modelled as injective symbolic encodings: the randomness consumed by
`secrets` is passed in explicitly as a parameter.
-/

set_option maxHeartbeats 1000000

namespace Dagmar

/-- Python `str` modelled as a list of characters. -/
abbrev Str := List Char

/-- `s.startswith(p)` on Python strings. -/
def strStartsWith (s p : Str) : Bool := s.take p.length == p

/-- Python truthiness of an `Optional[str]`: `None` and `""` are falsy. -/
def pyTruthyOptStr : Option Str → Bool
  | none => false
  | some s => !s.isEmpty

/-! ## app/security/tokens.py -/

/-- `TOKEN_BYTES = 32` from tokens.py. -/
def TOKEN_BYTES : Nat := 32

/-- The human readable token marker `"dg_"` (constant ` TOKEN_HUMAN_PREFIX` in
tokens.py). -/
def tokenHumanPfx : Str := ['d', 'g', '_']

/-- The urlsafe base64 alphabet, in value order. -/
def b64Alphabet : Str :=
  ['A','B','C','D','E','F','G','H','I','J','K','L','M',
   'N','O','P','Q','R','S','T','U','V','W','X','Y','Z',
   'a','b','c','d','e','f','g','h','i','j','k','l','m',
   'n','o','p','q','r','s','t','u','v','w','x','y','z',
   '0','1','2','3','4','5','6','7','8','9','-','_']

/-- The character for a 6-bit value. -/
def b64Char (n : Nat) : Char := b64Alphabet.getD n 'A'

/-- `base64.urlsafe_b64encode(data)` with `"="` padding stripped
(helper `_b64url` in tokens.py), on bytes given as `Nat`s. -/
def b64urlEncode : List Nat → Str
  | a :: b :: c :: rest =>
      b64Char (a / 4 % 64) :: b64Char (a % 4 * 16 + b / 16 % 16) ::
        b64Char (b % 16 * 4 + c / 64 % 4) :: b64Char (c % 64) :: b64urlEncode rest
  | [a, b] => [b64Char (a / 4 % 64), b64Char (a % 4 * 16 + b / 16 % 16), b64Char (b % 16 * 4)]
  | [a] => [b64Char (a / 4 % 64), b64Char (a % 4 * 16)]
  | [] => []

/-- `generate_instance_token`: `"dg_" + b64url(secrets.token_bytes(32))`.
The 32 random bytes are passed in explicitly. -/
def generate_instance_token (rnd : List Nat) : Str :=
  tokenHumanPfx ++ b64urlEncode rnd

/-- Model of `hash_token` (argon2 via passlib, self-salting).  The KDF is
idealized as an injective encoding that embeds a length marker, the token
and the salt; a real memory-hard hash is collision-free for all practical
purposes, which is exactly what this encoding provides. -/
def hash_token (salt : Nat) (token : Str) : Str :=
  List.replicate token.length '0' ++ '#' :: (token ++ '$' :: List.replicate salt '0')

/-- Recover the token a stored hash was computed from (the model's stand-in
for argon2's deterministic re-computation with the embedded salt). -/
def hashParse (stored : Str) : Option Str :=
  let n := (stored.takeWhile (fun c => c == '0')).length
  match stored.drop n with
  | '#' :: rest =>
    match rest.drop n with
    | '$' :: _ => some (rest.take n)
    | _ => none
  | _ => none

/-- `verify_token(token, stored_hash)`: check the plaintext against the
stored hash; never raises (exceptions are caught and mapped to `False`
in the source, the model is total by construction). -/
def verify_token (token stored : Str) : Bool := hashParse stored == some token

/-- `validate_token_format`: required `"dg_"` marker plus length bounds. -/
def validate_token_format (token : Str) : Bool :=
  if strStartsWith token tokenHumanPfx = false then false
  else if token.length < tokenHumanPfx.length + 16 then false
  else if token.length > 256 then false
  else true

/-! ### Data model: app/db/models.py -/

/-- `InstanceStatus` enum. -/
inductive InstanceStatus where
  | PENDING
  | ACTIVE
  | REVOKED
  | DEACTIVATED
deriving DecidableEq

/-- `ClientType` enum. -/
inductive ClientType where
  | ANDROID
  | WEB
deriving DecidableEq

/-- The `Instance` ORM row (models.py).  Timestamps are integers. -/
structure Instance where
  id : Str
  client_type : ClientType
  device_fingerprint : Str
  device_info_json : Option Str := none
  status : InstanceStatus
  display_name : Option Str := none
  profile_instance_id : Option Str := none
  employment_template : Str := ['D','P','P','_','D','P','C']
  token_hash : Option Str := none
  token_issued_at : Option Int := none
  created_at : Int := 0
  last_seen_at : Option Int := none
  activated_at : Option Int := none
  revoked_at : Option Int := none
  deactivated_at : Option Int := none
deriving DecidableEq

/-- Does a stored `token_hash` column pass the query filter
`isnot(None)` and `!= ""`? -/
def hashFilter : Option Str → Bool
  | none => false
  | some h => !h.isEmpty

/-- Loop body of `verify_instance_token`:
`if inst.token_hash and verify_token(raw_token, inst.token_hash)`. -/
def instTokenMatch (raw : Str) (i : Instance) : Bool :=
  match i.token_hash with
  | none => false
  | some h => !h.isEmpty && verify_token raw h

/-- `verify_instance_token(db, raw_token)`: reject malformed tokens by
format, then scan rows with a non-empty `token_hash` and return the first
whose hash verifies the token. -/
def verify_instance_token (db : List Instance) (raw : Str) : Option Instance :=
  if validate_token_format raw = false then none
  else (db.filter (fun i => hashFilter i.token_hash)).find? (fun i => instTokenMatch raw i)

/-- `issue_instance_token_once(db, instance)`: no-op (returns `none`) when
the instance already has a (truthy) `token_hash`; otherwise generate,
hash and store a fresh token and return its plaintext.  `rnd` is the
randomness consumed by `secrets.token_bytes`, `salt` the salt drawn by
passlib, `now` the current time. -/
def issue_instance_token_once (rnd : List Nat) (salt : Nat) (now : Int)
    (inst : Instance) : Option Str × Instance :=
  if pyTruthyOptStr inst.token_hash then (none, inst)
  else
    let token := generate_instance_token rnd
    (some token,
      { inst with token_hash := some (hash_token salt token), token_issued_at := some now })

/-- `rotate_instance_token(db, instance)`: unconditionally store a fresh
token hash, invalidating the previous token, and return the plaintext. -/
def rotate_instance_token (rnd : List Nat) (salt : Nat) (now : Int)
    (inst : Instance) : Str × Instance :=
  let token := generate_instance_token rnd
  (token,
    { inst with token_hash := some (hash_token salt token), token_issued_at := some now })

/-! ## HTTP error model -/

/-- The `detail` of a FastAPI `HTTPException`: either a plain message or a
structured `{code, message}` body. -/
inductive HDetail where
  | msg (text : Str)
  | codeMsg (code : Str) (message : Str)
deriving DecidableEq

/-- A raised `HTTPException` (or the generic 500 handler's response). -/
structure HErr where
  statusCode : Nat
  detail : HDetail
deriving DecidableEq

/-- Python whitespace (what `str.strip()` removes / `str.isspace` accepts):
TAB..CR, FS..US, SPACE, NEL, NBSP and the Unicode space separators. -/
def pySpaceChar (c : Char) : Bool :=
  (9 ≤ c.toNat && c.toNat ≤ 13) || (28 ≤ c.toNat && c.toNat ≤ 32) ||
  c.toNat == 0x85 || c.toNat == 0xA0 || c.toNat == 0x1680 ||
  (0x2000 ≤ c.toNat && c.toNat ≤ 0x200A) ||
  c.toNat == 0x2028 || c.toNat == 0x2029 || c.toNat == 0x202F ||
  c.toNat == 0x205F || c.toNat == 0x3000

/-- Python `str.strip()` (Python whitespace from both ends). -/
def pyStrip (s : Str) : Str :=
  ((s.dropWhile pySpaceChar).reverse.dropWhile pySpaceChar).reverse

/-- The default `employment_template` value `"DPP_DPC"`. -/
def dppDpc : Str := ("DPP_DPC").data

def msgInstanceNotActive : Str := ("Instance not active").data

def msgInstanceMisconfigured : Str := ("Instance misconfigured").data

def msgDisplayNameRequired : Str := ("display_name required").data

def msgInstanceIsDeactivated : Str := ("Instance is deactivated").data

def msgInstanceIsNotActive : Str := ("Instance is not active").data

/-! ## app/api/v1/instances.py -/

/-- `claim_token` (instances.py): poll endpoint issuing the bearer token.
The instance has already been fetched (`db.get`; a missing id yields 404
before this logic).  `last_seen_at` is updated unconditionally; a
non-ACTIVE status yields 403, an ACTIVE instance without a (truthy)
`display_name` yields 409; otherwise `issue_instance_token_once` is tried
and `rotate_instance_token` used when a token already exists. -/
def claim_token (rnd : List Nat) (salt : Nat) (now : Int) (inst0 : Instance) :
    Except HErr (Str × Instance) :=
  let inst := { inst0 with last_seen_at := some now }
  if decide (inst.status ≠ InstanceStatus.ACTIVE) then
    .error ⟨403, .msg msgInstanceNotActive⟩
  else if pyTruthyOptStr inst.display_name = false then
    .error ⟨409, .msg msgInstanceMisconfigured⟩
  else
    match issue_instance_token_once rnd salt now inst with
    | (some t, inst') => .ok (t, inst')
    | (none, inst') =>
        let (t, inst'') := rotate_instance_token rnd salt now inst'
        .ok (t, inst'')

/-- Input of `POST /instances/register` (instances.py variant). -/
structure RegisterPayload where
  client_type : ClientType
  device_fingerprint : Str
  device_info : Option Str := none
  display_name : Option Str := none
deriving DecidableEq

/-- The field updates `register_instance` applies to a reused
PENDING/ACTIVE row: refresh `last_seen_at`, default an empty
`employment_template`, take the client's latest `display_name`, and store
`device_info` when provided (dict truthiness). -/
def registerReuseUpdate (reusable : Instance) (payload : RegisterPayload)
    (dn : Str) (now : Int) : Instance :=
  let r1 := { reusable with last_seen_at := some now }
  let r2 := if r1.employment_template.isEmpty then
      { r1 with employment_template := dppDpc } else r1
  let r3 := if dn.isEmpty then r2 else { r2 with display_name := some dn }
  if pyTruthyOptStr payload.device_info then
    { r3 with device_info_json := payload.device_info } else r3

/-- The fresh PENDING row `register_instance` inserts. -/
def registerNewInstance (payload : RegisterPayload) (dn : Str) (newId : Str)
    (now : Int) : Instance :=
  { id := newId
    client_type := payload.client_type
    device_fingerprint := payload.device_fingerprint
    device_info_json :=
      if pyTruthyOptStr payload.device_info then payload.device_info else none
    status := InstanceStatus.PENDING
    display_name := some dn
    employment_template := dppDpc
    created_at := now
    last_seen_at := some now }

/-- The row query of `register_instance`: all rows for the
`(client_type, device_fingerprint)` pair, ordered by `created_at`
descending. -/
def registerRows (db : List Instance) (payload : RegisterPayload) : List Instance :=
  (db.filter (fun r =>
      decide (r.client_type = payload.client_type ∧
              r.device_fingerprint = payload.device_fingerprint))).mergeSort
    (fun a b => decide (b.created_at ≤ a.created_at))

/-- `register_instance` (instances.py): create a PENDING instance, reuse a
PENDING/ACTIVE row for the same `(client_type, device_fingerprint)` pair,
refuse registration when any row for the pair is DEACTIVATED. -/
def register_instance (db : List Instance) (payload : RegisterPayload)
    (newId : Str) (now : Int) : Except HErr (List Instance × Str × InstanceStatus) :=
  let display_name : Option Str :=
    match payload.display_name with
    | some s => if s.isEmpty then none else some (pyStrip s)
    | none => none
  if payload.display_name.isSome && !(pyTruthyOptStr display_name) then
    .error ⟨400, .msg msgDisplayNameRequired⟩
  else match display_name with
  | none => .error ⟨400, .msg msgDisplayNameRequired⟩
  | some dn =>
    let rows := registerRows db payload
    if rows.any (fun r => decide (r.status = InstanceStatus.DEACTIVATED)) then
      .error ⟨403, .msg msgInstanceIsDeactivated⟩
    else
      match rows.find? (fun r =>
          decide (r.status = InstanceStatus.ACTIVE ∨ r.status = InstanceStatus.PENDING)) with
      | some reusable =>
          let r4 := registerReuseUpdate reusable payload dn now
          .ok (db.map (fun r => if decide (r.id = reusable.id) then r4 else r), r4.id, r4.status)
      | none =>
          let inst := registerNewInstance payload dn newId now
          .ok (db ++ [inst], newId, InstanceStatus.PENDING)

/-! ## app/api/v1/public_instances.py -/

/-- `claim_instance_token` (public_instances.py): the duplicated public
variant.  A non-ACTIVE instance is refused with HTTP 409 (`Instance is
not active`); an ACTIVE one always gets a freshly rotated token. -/
def claim_instance_token (rnd : List Nat) (salt : Nat) (now : Int) (inst : Instance) :
    Except HErr (Str × Instance) :=
  if decide (inst.status ≠ InstanceStatus.ACTIVE) then
    .error ⟨409, .msg msgInstanceIsNotActive⟩
  else
    let (t, inst') := rotate_instance_token rnd salt now inst
    .ok (t, inst')

/-- `register_instance` (public_instances.py): the duplicated public
variant; unconditionally inserts a fresh PENDING row, with no
fingerprint-pair reuse and no DEACTIVATED refusal. -/
def public_register_instance (db : List Instance) (payload : RegisterPayload)
    (newId : Str) (now : Int) : List Instance × Str × InstanceStatus :=
  let inst : Instance :=
    { id := newId
      client_type := payload.client_type
      device_fingerprint := pyStrip payload.device_fingerprint
      device_info_json :=
        if pyTruthyOptStr payload.device_info then payload.device_info else none
      status := InstanceStatus.PENDING
      display_name :=
        match payload.display_name with
        | some s => if s.isEmpty then none else some (pyStrip s)
        | none => none
      created_at := now
      last_seen_at := some now }
  (db ++ [inst], newId, InstanceStatus.PENDING)

/-! ## app/security/sessions.py -/

/-- The `AdminSession` dataclass: `username: Optional[str]`, `issued_at`. -/
structure AdminSession where
  username : Option Str
  issued_at : Int
deriving DecidableEq

/-- `AdminSession.is_authenticated`: `bool(self.username)`. -/
def AdminSession.is_authenticated (s : AdminSession) : Bool :=
  pyTruthyOptStr s.username

/-- Model of `_sign(payload, secret)` = b64url(HMAC-SHA256(secret, payload)).
The MAC is idealized as an injective tag of the `(secret, payload)` pair:
for a fixed secret, equal tags force equal payloads, which is the
unforgeability property HMAC provides. -/
def hmacSign (secret payload : Str) : Str := 'M' :: secret ++ '|' :: payload

/-- Python `raw.split(".", 1)` unpacked into two parts: `none` when the
string holds no `"."` (where the source raises `ValueError`, caught by the
caller). -/
def splitDotOnce : Str → Option (Str × Str)
  | [] => none
  | c :: rest =>
      if c = '.' then some ([], rest)
      else
        match splitDotOnce rest with
        | some (a, b) => some (c :: a, b)
        | none => none

/-- `get_admin_session(request)`: validate the admin session cookie and
return the auth state.  `b64dec` models
`base64.urlsafe_b64decode(payload_b64 + "==").decode("utf-8")` and
`jparse` models `json.loads` plus the extraction
`str(data.get("u") or "")`, `int(data.get("iat") or 0)`; both return
`none` where the library call raises.  The function never raises: every
failure path returns an unauthenticated session. -/
def get_admin_session (b64dec : Str → Option Str) (jparse : Str → Option (Str × Int))
    (secret : Str) (maxAge now : Int) (cookie : Option Str) : AdminSession :=
  match cookie with
  | none => ⟨none, now⟩
  | some raw =>
    if raw.isEmpty then ⟨none, now⟩
    else
      match splitDotOnce raw with
      | none => ⟨none, now⟩
      | some (payload_b64, sig) =>
        match b64dec payload_b64 with
        | none => ⟨none, now⟩
        | some payload =>
          if (hmacSign secret payload == sig) = false then ⟨none, now⟩
          else
            match jparse payload with
            | none => ⟨none, now⟩
            | some (u, iat) =>
              if u.isEmpty then ⟨none, iat⟩
              else if maxAge < now - iat then ⟨none, iat⟩
              else ⟨some u, iat⟩

/-! ## app/security/csrf.py -/

/-- The session key `"csrf_token"`. -/
def csrfKey : Str := ("csrf_token").data

def safeMethods : List Str := [("GET").data, ("HEAD").data, ("OPTIONS").data]

def msgMissingSession : Str := ("Missing session").data

def msgMissingCsrfInSession : Str := ("Missing CSRF token in session").data

def msgMissingCsrf : Str := ("Missing CSRF token").data

def msgCsrfFailed : Str := ("CSRF validation failed").data

/-- The request data `require_csrf` consults.  `session` is the Starlette
session dict (`none` when unavailable, i.e. both `request.session` raising
and `request.state.session` missing); `formTok` is the `csrf_token` form
field (`none` when absent or when reading the form raises). -/
structure CsrfRequest where
  method : Str
  session : Option (List (Str × Str))
  headerTok : Option Str
  cookieTok : Option Str
  formTok : Option Str
deriving DecidableEq

/-- Association-list lookup modelling `dict.get`. -/
def lookupStr (k : Str) : List (Str × Str) → Option Str
  | [] => none
  | (k', v) :: rest => if k' = k then some v else lookupStr k rest

/-- `extract_csrf_token(request, csrf_header)`: header first (stripped),
then the `dagmar_csrf_token` mirror cookie (stripped), else `None`. -/
def extract_csrf_token (headerTok cookieTok : Option Str) : Option Str :=
  if pyTruthyOptStr headerTok then some (pyStrip (headerTok.getD []))
  else if pyTruthyOptStr cookieTok then some (pyStrip (cookieTok.getD []))
  else none

/-- The token the client provided, as `require_csrf` resolves it:
`extract_csrf_token` (header, else mirror cookie), and when that is falsy
the `csrf_token` form field, `(form.get("csrf_token") or "").strip() or
None`. -/
def csrfProvided (req : CsrfRequest) : Option Str :=
  let provided0 := extract_csrf_token req.headerTok req.cookieTok
  if pyTruthyOptStr provided0 then provided0
  else
    match req.formTok with
    | some f => if (pyStrip f).isEmpty then none else some (pyStrip f)
    | none => none

/-- Outcome of the `require_csrf` dependency. -/
inductive CsrfResult where
  | ok
  | err (statusCode : Nat) (detail : Str)
deriving DecidableEq

/-- `require_csrf`: safe methods pass unchecked; otherwise the session
must exist and hold a (truthy) `csrf_token`, the client must provide a
token (header, else mirror cookie, else form field), and the provided
token must equal the expected one; every failure raises `CsrfError`
(HTTP 403). -/
def require_csrf (req : CsrfRequest) : CsrfResult :=
  if decide (req.method ∈ safeMethods) then .ok
  else
    match req.session with
    | none => .err 403 msgMissingSession
    | some sess =>
      if sess.isEmpty then .err 403 msgMissingSession
      else
        match lookupStr csrfKey sess with
        | none => .err 403 msgMissingCsrfInSession
        | some expected =>
          if expected.isEmpty then .err 403 msgMissingCsrfInSession
          else
            match csrfProvided req with
            | none => .err 403 msgMissingCsrf
            | some p =>
              if (p == expected) = false then .err 403 msgCsrfFailed
              else .ok

/-! ## app/utils/timeparse.py and dates -/

/-- A Python `datetime.date`. -/
structure PyDate where
  year : Nat
  month : Nat
  day : Nat
deriving DecidableEq

/-- `days_in_month` (timeparse.py computes it by date subtraction; the
model spells out the Gregorian rule the subtraction yields). -/
def days_in_month (year month : Nat) : Nat :=
  if month = 2 then
    (if year % 4 = 0 ∧ (year % 100 ≠ 0 ∨ year % 400 = 0) then 29 else 28)
  else if month = 4 ∨ month = 6 ∨ month = 9 ∨ month = 11 then 30
  else 31

/-- Numeric value of an ASCII digit. -/
def digitVal (c : Char) : Option Nat :=
  if c.isDigit then some (c.toNat - 48) else none

/-- Shape check `\d{4}-\d{2}-\d{2}` with the numeric fields. -/
def ymdShape : Str → Option (Nat × Nat × Nat)
  | [y1, y2, y3, y4, '-', m1, m2, '-', d1, d2] =>
      match digitVal y1, digitVal y2, digitVal y3, digitVal y4,
            digitVal m1, digitVal m2, digitVal d1, digitVal d2 with
      | some a, some b, some c, some d, some e, some f, some g, some h =>
          some (((a * 10 + b) * 10 + c) * 10 + d, e * 10 + f, g * 10 + h)
      | _, _, _, _, _, _, _, _ => none
  | _ => none

/-- Calendar validity of a (year, month, day) triple. -/
def dateValid (y m d : Nat) : Bool :=
  decide (1 ≤ m ∧ m ≤ 12 ∧ 1 ≤ d ∧ d ≤ days_in_month y m)

/-- `datetime.date.fromisoformat` on `YYYY-MM-DD`; `none` where Python
raises `ValueError`. -/
def date_fromisoformat (s : Str) : Option PyDate :=
  match ymdShape s with
  | some (y, m, d) => if dateValid y m d then some ⟨y, m, d⟩ else none
  | none => none

def msgInvalidDateFormat : Str := ("Invalid date format, expected YYYY-MM-DD").data

def msgInvalidDate : Str := ("Invalid date").data

/-- `parse_yyyy_mm_dd` (timeparse.py): regex shape check, then `strptime`;
distinct messages for a shape failure and an out-of-range date. -/
def parse_yyyy_mm_dd (s : Str) : Except Str PyDate :=
  match ymdShape s with
  | none => .error msgInvalidDateFormat
  | some (y, m, d) =>
      if dateValid y m d then .ok ⟨y, m, d⟩ else .error msgInvalidDate

/-- First code points of the runs of ten that form the Unicode `Nd`
(decimal digit) category, the class a `\d` in a Python `str` pattern
matches (Unicode 15.0, as shipped with current CPython). -/
def ndZeroPoints : List Nat :=
  [0x30, 0x660, 0x6F0, 0x7C0, 0x966, 0x9E6, 0xA66, 0xAE6, 0xB66, 0xBE6,
   0xC66, 0xCE6, 0xD66, 0xDE6, 0xE50, 0xED0, 0xF20, 0x1040, 0x1090, 0x17E0,
   0x1810, 0x1946, 0x19D0, 0x1A80, 0x1A90, 0x1B50, 0x1BB0, 0x1C40, 0x1C50,
   0xA620, 0xA8D0, 0xA900, 0xA9D0, 0xA9F0, 0xAA50, 0xABF0, 0xFF10,
   0x104A0, 0x10D30, 0x11066, 0x110F0, 0x11136, 0x111D0, 0x112F0, 0x11450,
   0x114D0, 0x11650, 0x116C0, 0x11730, 0x118E0, 0x11950, 0x11C50, 0x11D50,
   0x11DA0, 0x11F50, 0x16A60, 0x16AC0, 0x16B50,
   0x1D7CE, 0x1D7D8, 0x1D7E2, 0x1D7EC, 0x1D7F6,
   0x1E140, 0x1E2F0, 0x1E4F0, 0x1E950, 0x1FBF0]

/-- Python regex `\d` in a `str` pattern: any Unicode decimal digit. -/
def pyDigitNd (c : Char) : Bool :=
  ndZeroPoints.any (fun z => z ≤ c.toNat && c.toNat ≤ z + 9)

/-- A regex character range `[lo-hi]` as a code-point interval. -/
def reClass (lo hi c : Char) : Bool :=
  lo.toNat ≤ c.toNat && c.toNat ≤ hi.toNat

/-- The anchored core `(?:[01]\d|2[0-3]):[0-5]\d` of `_TIME_RE`
(timeparse.py), with `\d` the Unicode decimal-digit class. -/
def hhmmCore : Str → Bool
  | [h1, h2, c, m1, m2] =>
      c == ':' &&
      (reClass '0' '1' h1 && pyDigitNd h2 ||
        reClass '2' '2' h1 && reClass '0' '3' h2) &&
      reClass '0' '5' m1 && pyDigitNd m2
  | _ => false

/-- `_TIME_RE.match` of `^(?:[01]\d|2[0-3]):[0-5]\d$`: as in Python `re`,
the `$` also matches just before a newline that ends the string, so the
core shape followed by one trailing newline is accepted too. -/
def hhmmMatch (s : Str) : Bool :=
  hhmmCore s || (s.getLast? == some '\n' && hhmmCore s.dropLast)

/-- `is_valid_hhmm`: `True` for `None` or a matching `HH:MM` string. -/
def is_valid_hhmm : Option Str → Bool
  | none => true
  | some v => hhmmMatch v

def msgInvalidTime : Str := ("Invalid time format, expected HH:MM in 00:00-23:59").data

/-- `normalize_hhmm_or_none`: `None` stays `None`, an empty or
whitespace-only string becomes `None`, an invalid string raises
`TimeParseError`, a valid `HH:MM` string is returned unchanged. -/
def normalize_hhmm_or_none : Option Str → Except Str (Option Str)
  | none => .ok none
  | some v =>
      if (pyStrip v).isEmpty then .ok none
      else if is_valid_hhmm (some v) = false then .error msgInvalidTime
      else .ok (some v)

/-- `parse_hhmm_or_none` is an alias of `normalize_hhmm_or_none`. -/
def parse_hhmm_or_none : Option Str → Except Str (Option Str) :=
  normalize_hhmm_or_none

/-- An ASCII decimal digit `0`-`9`. -/
def asciiDigit (c : Char) : Bool :=
  48 ≤ c.toNat && c.toNat ≤ 57

/-- The claim's words, not the code: a strict five-character ASCII
`HH:MM` string whose hour is 00-23 and minute is 00-59. -/
def specHHMM : Str → Bool
  | [h1, h2, c, m1, m2] =>
      c == ':' && asciiDigit h1 && asciiDigit h2 && asciiDigit m1 &&
      asciiDigit m2 &&
      decide (10 * (h1.toNat - 48) + (h2.toNat - 48) < 24) &&
      decide (10 * (m1.toNat - 48) + (m2.toNat - 48) < 60)
  | _ => false

/-! ## Attendance data model (models.py) -/

/-- An `attendance` row; `rid` is the autoincrement primary key. -/
structure Attendance where
  rid : Nat
  instance_id : Str
  date : PyDate
  arrival_time : Option Str := none
  departure_time : Option Str := none
deriving DecidableEq

/-- An `attendance_locks` row. -/
structure AttendanceLock where
  rid : Nat
  instance_id : Str
  year : Nat
  month : Nat
  locked_by : Option Str := none
deriving DecidableEq

/-- A `shift_plan` row. -/
structure ShiftPlan where
  rid : Nat
  instance_id : Str
  date : PyDate
  arrival_time : Option Str := none
  departure_time : Option Str := none
deriving DecidableEq

/-- A `shift_plan_month_instances` row. -/
structure ShiftPlanMonthInstance where
  rid : Nat
  instance_id : Str
  year : Nat
  month : Nat
deriving DecidableEq

/-! ## app/api/v1/attendance.py and admin_attendance.py -/

/-- `_is_locked(db, instance_id, year, month)`. -/
def _is_locked (locks : List AttendanceLock) (instance_id : Str) (year month : Nat) : Bool :=
  locks.any (fun l => decide (l.instance_id = instance_id ∧ l.year = year ∧ l.month = month))

/-- Body of `PUT /api/v1/attendance` / `PUT /api/v1/admin/attendance`. -/
structure AttendanceUpsertIn where
  date : Str
  arrival_time : Option Str := none
  departure_time : Option Str := none
deriving DecidableEq

def lockedCode : Str := ("ATTENDANCE_MONTH_LOCKED").data

def lockedMessage : Str := ("Docházka pro tento měsíc je uzavřená administrátorem.").data

/-- The generic 500 response of the unhandled-exception handler. -/
def internalError : HErr := ⟨500, .codeMsg (("internal_error").data) (("Internal server error").data)⟩

/-- The 423 raised for a locked month. -/
def lockedError : HErr := ⟨423, .codeMsg lockedCode lockedMessage⟩

/-- Shared row write of both upsert endpoints: update the `(instance, date)`
row when it exists, else insert a new one. -/
def attWrite (att : List Attendance) (instId : Str) (day : PyDate)
    (arrival departure : Option Str) (freshRid : Nat) : List Attendance :=
  match att.find? (fun r => decide (r.instance_id = instId ∧ r.date = day)) with
  | none => att ++ [⟨freshRid, instId, day, arrival, departure⟩]
  | some existing =>
      att.map (fun r =>
        if decide (r.rid = existing.rid) then
          { r with arrival_time := arrival, departure_time := departure }
        else r)

/-- `upsert_attendance` (attendance.py, instance-facing `PUT`): the caller
is an authenticated ACTIVE instance (`require_instance`).  A bad date or
time raises an uncaught `ValueError`/`TimeParseError`, surfaced as the
generic 500; a locked month is refused with 423 before any write. -/
def upsert_attendance (att : List Attendance) (locks : List AttendanceLock)
    (inst : Instance) (body : AttendanceUpsertIn) (freshRid : Nat) :
    Except HErr (List Attendance) :=
  match date_fromisoformat body.date with
  | none => .error internalError
  | some day =>
    if _is_locked locks inst.id day.year day.month then .error lockedError
    else
      match parse_hhmm_or_none body.arrival_time, parse_hhmm_or_none body.departure_time with
      | .ok arrival, .ok departure =>
          .ok (attWrite att inst.id day arrival departure freshRid)
      | .error _, _ => .error internalError
      | _, .error _ => .error internalError

/-- Body of the admin upsert (adds `instance_id`). -/
structure AdminAttendanceUpsertIn where
  instance_id : Str
  date : Str
  arrival_time : Option Str := none
  departure_time : Option Str := none
deriving DecidableEq

def msgInstanceNotFound : Str := ("Instance not found").data

/-- `admin_upsert_attendance` (admin_attendance.py): resolves the instance
(404 when absent), validates date and times (400 on failure), then writes
the row.  It performs no month-lock check. -/
def admin_upsert_attendance (att : List Attendance) (instances : List Instance)
    (body : AdminAttendanceUpsertIn) (freshRid : Nat) : Except HErr (List Attendance) :=
  match instances.find? (fun i => decide (i.id = body.instance_id)) with
  | none => .error ⟨404, .msg msgInstanceNotFound⟩
  | some inst =>
    match parse_yyyy_mm_dd body.date with
    | .error e => .error ⟨400, .msg e⟩
    | .ok day =>
      match parse_hhmm_or_none body.arrival_time, parse_hhmm_or_none body.departure_time with
      | .ok arrival, .ok departure =>
          .ok (attWrite att inst.id day arrival departure freshRid)
      | .error e, _ => .error ⟨400, .msg e⟩
      | _, .error e => .error ⟨400, .msg e⟩

/-- `lock_month`: create the `(instance, year, month)` lock row unless one
already exists (404 when the instance is absent). -/
def lock_month (locks : List AttendanceLock) (instances : List Instance)
    (instance_id : Str) (year month : Nat) (admin_username : Option Str)
    (freshRid : Nat) : Except HErr (List AttendanceLock) :=
  match instances.find? (fun i => decide (i.id = instance_id)) with
  | none => .error ⟨404, .msg msgInstanceNotFound⟩
  | some inst =>
    if locks.any (fun l => decide (l.instance_id = inst.id ∧ l.year = year ∧ l.month = month)) then
      .ok locks
    else .ok (locks ++ [⟨freshRid, inst.id, year, month, admin_username⟩])

/-- `unlock_month`: delete the `(instance, year, month)` lock row when
present (404 when the instance is absent). -/
def unlock_month (locks : List AttendanceLock) (instances : List Instance)
    (instance_id : Str) (year month : Nat) : Except HErr (List AttendanceLock) :=
  match instances.find? (fun i => decide (i.id = instance_id)) with
  | none => .error ⟨404, .msg msgInstanceNotFound⟩
  | some inst =>
    match locks.find? (fun l => decide (l.instance_id = inst.id ∧ l.year = year ∧ l.month = month)) with
    | none => .ok locks
    | some lock => .ok (locks.filter (fun l => !(decide (l.rid = lock.rid))))

/-! ## app/api/v1/admin_instances.py (merge) -/

/-- The shared loop of `_merge_attendance`, `_merge_shift_plan`,
`_merge_shift_plan_month_instances` and `_merge_attendance_locks` (the
four Python helpers are identical up to the table and its key): iterate
over the source's rows; when the target already has a row for the same
key, delete the source row, otherwise reassign it to the target. -/
def mergeStep {ρ κ : Type} [DecidableEq κ]
    (rid : ρ → Nat) (instOf : ρ → Str) (keyOf : ρ → κ) (setInst : ρ → Str → ρ)
    (tgt : Str) (acc : List ρ) (row : ρ) : List ρ :=
  if acc.any (fun r => decide (instOf r = tgt ∧ keyOf r = keyOf row)) then
    acc.filter (fun r => !(decide (rid r = rid row)))
  else
    acc.map (fun r => if decide (rid r = rid row) then setInst r tgt else r)

def mergeRows {ρ κ : Type} [DecidableEq κ]
    (rid : ρ → Nat) (instOf : ρ → Str) (keyOf : ρ → κ) (setInst : ρ → Str → ρ)
    (db : List ρ) (src tgt : Str) : List ρ :=
  (db.filter (fun r => decide (instOf r = src))).foldl
    (mergeStep rid instOf keyOf setInst tgt) db

/-- `_merge_attendance(db, source_id, target_id)`. -/
def _merge_attendance (db : List Attendance) (src tgt : Str) : List Attendance :=
  mergeRows (fun r => r.rid) (fun r => r.instance_id) (fun r => r.date)
    (fun r t => { r with instance_id := t }) db src tgt

/-- `_merge_shift_plan(db, source_id, target_id)`. -/
def _merge_shift_plan (db : List ShiftPlan) (src tgt : Str) : List ShiftPlan :=
  mergeRows (fun r => r.rid) (fun r => r.instance_id) (fun r => r.date)
    (fun r t => { r with instance_id := t }) db src tgt

/-- `_merge_shift_plan_month_instances(db, source_id, target_id)`. -/
def _merge_shift_plan_month_instances (db : List ShiftPlanMonthInstance) (src tgt : Str) :
    List ShiftPlanMonthInstance :=
  mergeRows (fun r => r.rid) (fun r => r.instance_id) (fun r => (r.year, r.month))
    (fun r t => { r with instance_id := t }) db src tgt

/-- `_merge_attendance_locks(db, source_id, target_id)`. -/
def _merge_attendance_locks (db : List AttendanceLock) (src tgt : Str) :
    List AttendanceLock :=
  mergeRows (fun r => r.rid) (fun r => r.instance_id) (fun r => (r.year, r.month))
    (fun r t => { r with instance_id := t }) db src tgt

/-- All tables `merge_instances` touches. -/
structure MergeState where
  instances : List Instance
  attendance : List Attendance
  shift_plans : List ShiftPlan
  shift_plan_month_instances : List ShiftPlanMonthInstance
  locks : List AttendanceLock
deriving DecidableEq

/-- One step of the source-id normalisation loop of `merge_instances`:
drop empty ids, the target id itself, and duplicates. -/
def dedupStep (target_id : Str) (acc : List Str) (iid : Str) : List Str :=
  if iid.isEmpty then acc
  else if decide (iid = target_id) then acc
  else if decide (iid ∈ acc) then acc
  else acc ++ [iid]

/-- Source-id normalisation of `merge_instances`, keeping first-seen
order. -/
def dedupSources (target_id : Str) (ids : List Str) : List Str :=
  ids.foldl (dedupStep target_id) []

/-- The per-source body of the `merge_instances` loop: move the four row
tables, then point the source's `profile_instance_id` at the target. -/
def mergeApplySource (tid : Str) (acc : MergeState) (src : Instance) : MergeState :=
  { acc with
    attendance := _merge_attendance acc.attendance src.id tid
    shift_plans := _merge_shift_plan acc.shift_plans src.id tid
    shift_plan_month_instances :=
      _merge_shift_plan_month_instances acc.shift_plan_month_instances src.id tid
    locks := _merge_attendance_locks acc.locks src.id tid
    instances := acc.instances.map (fun i =>
      if decide (i.id = src.id) then { i with profile_instance_id := some tid }
      else i) }

def msgProvideTarget : Str := ("Provide target_id and at least one source_id").data

def msgTargetNotFound : Str := ("Target instance not found").data

def msgTargetMustBeActive : Str := ("Target instance must be ACTIVE").data

def msgTargetAlreadyMerged : Str := ("Target instance is already merged").data

def msgSourcesNotFound : Str := ("Some source instances were not found").data

def msgSourcesMustBeActive : Str := ("All source instances must be ACTIVE").data

def msgSourceAlreadyMerged : Str := ("Source instance is already merged").data

/-- `merge_instances` (admin endpoint): validate target and sources, then
move attendance / shift-plan / month-instance / lock rows of every source
to the target and point each source's `profile_instance_id` at the
target. -/
def merge_instances (st : MergeState) (payload_target_id : Str)
    (payload_source_ids : List Str) : Except HErr (MergeState × Nat) :=
  let target_id := pyStrip payload_target_id
  let source_ids := dedupSources target_id payload_source_ids
  if target_id.isEmpty || source_ids.isEmpty then
    .error ⟨400, .msg msgProvideTarget⟩
  else
    match st.instances.find? (fun i => decide (i.id = target_id)) with
    | none => .error ⟨404, .msg msgTargetNotFound⟩
    | some target =>
      if decide (target.status ≠ InstanceStatus.ACTIVE) then
        .error ⟨409, .msg msgTargetMustBeActive⟩
      else if pyTruthyOptStr target.profile_instance_id then
        .error ⟨409, .msg msgTargetAlreadyMerged⟩
      else if source_ids.any
          (fun iid => (st.instances.find? (fun i => decide (i.id = iid))).isNone) then
        .error ⟨404, .msg msgSourcesNotFound⟩
      else
        let sources := source_ids.filterMap
          (fun iid => st.instances.find? (fun i => decide (i.id = iid)))
        if sources.any (fun s => decide (s.status ≠ InstanceStatus.ACTIVE)) then
          .error ⟨409, .msg msgSourcesMustBeActive⟩
        else if sources.any (fun s =>
            pyTruthyOptStr s.profile_instance_id &&
              decide (s.profile_instance_id ≠ some target.id)) then
          .error ⟨409, .msg msgSourceAlreadyMerged⟩
        else
          let st' := sources.foldl (mergeApplySource target.id) st
          .ok (st', sources.length)

/-- Proof-side abbreviation: the per-table projection of the
`merge_instances` source loop, folding one `mergeRows` call per source id
(proved below to match the endpoint's fold). -/
def mergeMany {ρ κ : Type} [DecidableEq κ]
    (rid : ρ → Nat) (instOf : ρ → Str) (keyOf : ρ → κ) (setInst : ρ → Str → ρ)
    (db : List ρ) (ids : List Str) (tgt : Str) : List ρ :=
  ids.foldl (fun a iid => mergeRows rid instOf keyOf setInst a iid tgt) db

/-! ## Concrete fixtures used by the witnesses -/

def instActive : Instance :=
  { id := ("i1").data, client_type := .ANDROID, device_fingerprint := ("fp1").data,
    status := .ACTIVE, display_name := some (("Jana").data) }

def instActiveNoName : Instance :=
  { id := ("i2").data, client_type := .ANDROID, device_fingerprint := ("fp2").data,
    status := .ACTIVE, display_name := none }

def instPending : Instance :=
  { id := ("i3").data, client_type := .WEB, device_fingerprint := ("fp3").data,
    status := .PENDING, display_name := some (("Petr").data) }

def tokFix : Str := ("dg_aaaaaaaaaaaaaaaa").data

def instTokened : Instance :=
  { id := ("i5").data, client_type := .ANDROID, device_fingerprint := ("fp5").data,
    status := .ACTIVE, display_name := some (("Olga").data),
    token_hash := some (hash_token 0 tokFix) }

def secretFix : Str := ("k").data

def sessionCookieFix : Str :=
  ("u").data ++ '.' :: hmacSign secretFix (("u").data)

def reqSafe : CsrfRequest :=
  { method := ("GET").data, session := none, headerTok := none,
    cookieTok := none, formTok := none }

def reqUnsafeGood : CsrfRequest :=
  { method := ("POST").data, session := some [(csrfKey, ("t").data)],
    headerTok := some (("t").data), cookieTok := none, formTok := none }

def rndFixA : List Nat := List.replicate 32 0

def rndFixB : List Nat := List.replicate 32 1

def payload9 : RegisterPayload :=
  { client_type := .ANDROID, device_fingerprint := ("fpd").data,
    display_name := some (("Eva").data) }

def instDeact9 : Instance :=
  { id := ("i9").data, client_type := .ANDROID, device_fingerprint := ("fpd").data,
    status := .DEACTIVATED, display_name := some (("Eva").data) }

def payloadW : RegisterPayload :=
  { client_type := .ANDROID, device_fingerprint := ("fpw").data,
    display_name := some (("Mia").data) }

def payloadP : RegisterPayload :=
  { client_type := .WEB, device_fingerprint := ("fp3").data,
    display_name := some (("Petra").data) }

def lockFix : AttendanceLock :=
  { rid := 1, instance_id := ("i1").data, year := 2026, month := 3 }

def adminBodyFix : AdminAttendanceUpsertIn :=
  { instance_id := ("i1").data, date := ("2026-03-05").data,
    arrival_time := some (("08:00").data), departure_time := none }

def srcInst7 : Instance :=
  { id := ("i6").data, client_type := .ANDROID, device_fingerprint := ("fp6").data,
    status := .ACTIVE, display_name := some (("Two").data) }

def attRow1 : Attendance :=
  { rid := 1, instance_id := ("i1").data, date := ⟨2026, 1, 1⟩,
    arrival_time := some (("08:00").data) }

def attRow2 : Attendance :=
  { rid := 2, instance_id := ("i6").data, date := ⟨2026, 1, 1⟩ }

def attRow3 : Attendance :=
  { rid := 3, instance_id := ("i6").data, date := ⟨2026, 1, 2⟩ }

def mergeStFix : MergeState :=
  { instances := [instActive, srcInst7], attendance := [attRow1, attRow2, attRow3],
    shift_plans := [], shift_plan_month_instances := [], locks := [] }

def mergeResFix : MergeState :=
  { instances := [instActive, { srcInst7 with profile_instance_id := some (("i1").data) }],
    attendance := [attRow1, { attRow3 with instance_id := ("i1").data }],
    shift_plans := [], shift_plan_month_instances := [], locks := [] }

/-! ### Basic lemmas about the token model -/

theorem b64urlEncode_length : ∀ l : List Nat,
    (b64urlEncode l).length =
      4 * (l.length / 3) + (if l.length % 3 = 0 then 0 else l.length % 3 + 1)
  | _a :: _b :: _c :: rest => by
      simp only [b64urlEncode, List.length_cons, b64urlEncode_length rest]
      have h3 : (rest.length + 1 + 1 + 1) % 3 = rest.length % 3 := by omega
      rw [h3]
      rcases eq_or_ne (rest.length % 3) 0 with h | h <;> simp [h] <;> omega
  | [_a, _b] => by simp [b64urlEncode]
  | [_a] => by simp [b64urlEncode]
  | [] => by simp [b64urlEncode]

theorem generate_length (rnd : List Nat) (h : rnd.length = TOKEN_BYTES) :
    (generate_instance_token rnd).length = 46 := by
  simp [generate_instance_token, tokenHumanPfx, b64urlEncode_length, h, TOKEN_BYTES]

theorem generate_startsWith (rnd : List Nat) :
    strStartsWith (generate_instance_token rnd) tokenHumanPfx = true := by
  show ((tokenHumanPfx ++ b64urlEncode rnd).take tokenHumanPfx.length == tokenHumanPfx) = true
  rw [List.take_left]
  simp

theorem validate_generate (rnd : List Nat) (h : rnd.length = TOKEN_BYTES) :
    validate_token_format (generate_instance_token rnd) = true := by
  unfold validate_token_format
  rw [generate_startsWith rnd]
  simp [generate_length rnd h, tokenHumanPfx]

theorem takeWhile_zeros (n : Nat) (l : Str) :
    (List.replicate n '0' ++ '#' :: l).takeWhile (fun c => c == '0') =
      List.replicate n '0' := by
  induction n with
  | zero => simp [List.takeWhile_cons]
  | succ k ih => simp [List.replicate_succ, List.takeWhile_cons, ih]

theorem hashParse_hash_token (salt : Nat) (token : Str) :
    hashParse (hash_token salt token) = some token := by
  unfold hashParse hash_token
  simp only [takeWhile_zeros, List.length_replicate]
  rw [List.drop_left' (List.length_replicate token.length '0')]
  simp only [List.drop_left, List.take_left]

/-- The model KDF is collision-free: a stored hash verifies exactly the
token it was computed from. -/
theorem verify_token_iff (salt : Nat) (token t' : Str) :
    verify_token t' (hash_token salt token) = true ↔ t' = token := by
  unfold verify_token
  rw [hashParse_hash_token]
  simp only [beq_iff_eq, Option.some.injEq]
  exact eq_comm

theorem hash_token_not_empty (salt : Nat) (token : Str) :
    (hash_token salt token).isEmpty = false := by
  cases token <;> simp [hash_token]

theorem instTokenMatch_hashFilter {raw : Str} {i : Instance}
    (h : instTokenMatch raw i = true) : hashFilter i.token_hash = true := by
  rcases htk : i.token_hash with _ | hsh <;>
    simp only [instTokenMatch] at h <;> rw [htk] at h
  · simp at h
  · rw [hashFilter]
    simp only [Bool.and_eq_true] at h
    exact h.1

/-- On well-formed tokens, `verify_instance_token` is the first-match scan
over the whole table. -/
theorem verify_instance_token_eq (db : List Instance) (raw : Str)
    (hv : validate_token_format raw = true) :
    verify_instance_token db raw = db.find? (fun i => instTokenMatch raw i) := by
  unfold verify_instance_token
  rw [hv]
  simp only [Bool.true_eq_false, if_false]
  rw [List.find?_filter]
  have hfn : (fun a : Instance =>
      decide (hashFilter a.token_hash = true ∧ instTokenMatch raw a = true)) =
      fun a => instTokenMatch raw a := by
    funext a
    rcases hm : instTokenMatch raw a
    · simp [hm]
    · simp [hm, instTokenMatch_hashFilter hm]
  rw [hfn]

/-! ## Witness fixtures -/

/-! ## Claims -/

/-- C4: `issue_instance_token_once` returns the no-op signal (`none`) and
leaves the stored `token_hash` and `token_issued_at` unchanged when the
instance already has a token hash; otherwise it generates a token, stores
its hash and an issuance timestamp on the instance, and returns the
plaintext token. -/
theorem issue_once_spec (rnd : List Nat) (salt : Nat) (now : Int) (inst : Instance) :
    (pyTruthyOptStr inst.token_hash = true →
      issue_instance_token_once rnd salt now inst = (none, inst)) ∧
    (pyTruthyOptStr inst.token_hash = false →
      issue_instance_token_once rnd salt now inst =
        (some (generate_instance_token rnd),
          { inst with
              token_hash := some (hash_token salt (generate_instance_token rnd))
              token_issued_at := some now })) := by
  constructor <;> intro h <;> simp [issue_instance_token_once, h]

/-- Witness for C4: a no-op on an instance that already has a hash, a
fresh issuance on one that has none. -/
theorem issue_once_spec_witness :
    issue_instance_token_once [1, 2] 3 5 instTokened = (none, instTokened) ∧
    issue_instance_token_once [1, 2] 3 5 instActive =
      (some (generate_instance_token [1, 2]),
        { instActive with
            token_hash := some (hash_token 3 (generate_instance_token [1, 2]))
            token_issued_at := some (5 : Int) }) :=
  ⟨(issue_once_spec [1, 2] 3 5 instTokened).1 (by decide),
   (issue_once_spec [1, 2] 3 5 instActive).2 (by decide)⟩

/-- An ASCII digit lies in the first `Nd` run. -/
theorem asciiDigit_pyDigitNd (c : Char) (h : asciiDigit c = true) :
    pyDigitNd c = true := by
  simp only [asciiDigit, Bool.and_eq_true, decide_eq_true_eq] at h
  simp only [pyDigitNd, List.any_eq_true]
  refine ⟨0x30, by decide, ?_⟩
  simp only [Bool.and_eq_true, decide_eq_true_eq]
  omega

/-- A strict ASCII `HH:MM` in range matches the core of `_TIME_RE`. -/
theorem specHHMM_hhmmCore (v : Str) (h : specHHMM v = true) :
    hhmmCore v = true := by
  rcases v with _ | ⟨a, _ | ⟨b, _ | ⟨c, _ | ⟨d, _ | ⟨e, _ | ⟨f, rest⟩⟩⟩⟩⟩⟩ <;>
    simp [specHHMM] at h
  obtain ⟨⟨⟨⟨⟨⟨hc, ha⟩, hb⟩, hd⟩, he⟩, hh⟩, hm⟩ := h
  subst hc
  have hb' : pyDigitNd b = true := asciiDigit_pyDigitNd b hb
  have he' : pyDigitNd e = true := asciiDigit_pyDigitNd e he
  have ha' : 48 ≤ a.toNat ∧ a.toNat ≤ 57 := by
    simpa [asciiDigit] using ha
  have hb2 : 48 ≤ b.toNat ∧ b.toNat ≤ 57 := by
    simpa [asciiDigit] using hb
  have hd' : 48 ≤ d.toNat ∧ d.toNat ≤ 57 := by
    simpa [asciiDigit] using hd
  simp only [hhmmCore, reClass, hb', he', beq_self_eq_true, Bool.true_and,
    Bool.and_true, Bool.and_eq_true, Bool.or_eq_true, decide_eq_true_eq,
    show ('0' : Char).toNat = 48 from rfl, show ('1' : Char).toNat = 49 from rfl,
    show ('2' : Char).toNat = 50 from rfl, show ('3' : Char).toNat = 51 from rfl,
    show ('5' : Char).toNat = 53 from rfl]
  omega

/-- C10 (amended): a `None` or Python-whitespace-only value is normalized
to null; any other value is validated against `_TIME_RE.match` on the
unstripped string, where `$` also matches before a single trailing
newline and `\d` is the Unicode decimal-digit class: a non-matching
value raises the validation error, a matching value is returned
unchanged (trailing newline and all), every strict ASCII `HH:MM` in
00:00-23:59 matches, and an upsert whose arrival strips to empty stores
no time for the field. -/
theorem normalize_hhmm_spec :
    (∀ v : Str, (pyStrip v).isEmpty = true →
        normalize_hhmm_or_none (some v) = .ok none) ∧
    (∀ v : Str, (pyStrip v).isEmpty = false → hhmmMatch v = false →
        normalize_hhmm_or_none (some v) = .error msgInvalidTime) ∧
    (∀ v : Str, (pyStrip v).isEmpty = false → hhmmMatch v = true →
        normalize_hhmm_or_none (some v) = .ok (some v)) ∧
    (∀ v : Str, hhmmMatch v = true ↔
        (hhmmCore v = true ∨ ∃ w, v = w ++ ['\n'] ∧ hhmmCore w = true)) ∧
    (∀ v : Str, specHHMM v = true → hhmmMatch v = true) ∧
    (∀ att locks (inst : Instance) freshRid (body : AttendanceUpsertIn) day a,
        date_fromisoformat body.date = some day →
        _is_locked locks inst.id day.year day.month = false →
        body.arrival_time = some a → (pyStrip a).isEmpty = true →
        body.departure_time = none →
        upsert_attendance att locks inst body freshRid =
          .ok (attWrite att inst.id day none none freshRid)) := by
  refine ⟨fun v hv => by simp [normalize_hhmm_or_none, hv],
    fun v hv hm => by simp [normalize_hhmm_or_none, hv, is_valid_hhmm, hm],
    fun v hv hm => by simp [normalize_hhmm_or_none, hv, is_valid_hhmm, hm],
    fun v => ?_, fun v hv => ?_,
    fun att locks inst freshRid body day a hd hl ha hae hdep => ?_⟩
  · simp only [hhmmMatch, Bool.or_eq_true, Bool.and_eq_true, beq_iff_eq]
    constructor
    · rintro (hcv | ⟨hlast, hcore⟩)
      · exact Or.inl hcv
      · rcases List.eq_nil_or_concat v with rfl | ⟨l, ch, rfl⟩
        · simp at hlast
        · simp only [List.concat_eq_append] at hlast hcore ⊢
          rw [List.getLast?_concat] at hlast
          obtain rfl : ch = '\n' := by simpa using hlast
          rw [List.dropLast_concat] at hcore
          exact Or.inr ⟨l, rfl, hcore⟩
    · rintro (hcv | ⟨w, rfl, hcore⟩)
      · exact Or.inl hcv
      · exact Or.inr ⟨by rw [List.getLast?_concat],
          by rwa [List.dropLast_concat]⟩
  · have hc := specHHMM_hhmmCore v hv
    simp [hhmmMatch, hc]
  · unfold upsert_attendance
    rw [hd, ha, hdep]
    have hnil : pyStrip a = [] := by simpa using hae
    simp [hl, parse_hhmm_or_none, normalize_hhmm_or_none, hnil]

/-- Witness for C10 at concrete strings and a concrete upsert. -/
theorem normalize_hhmm_spec_witness :
    normalize_hhmm_or_none (some ((" ").data)) = .ok none ∧
    normalize_hhmm_or_none (some (("9:00").data)) = .error msgInvalidTime ∧
    normalize_hhmm_or_none (some (("09:30").data)) = .ok (some (("09:30").data)) ∧
    hhmmMatch (("09:30").data) = true ∧
    upsert_attendance [] [] instActive ⟨("2026-03-05").data, some [], none⟩ 1 =
      .ok (attWrite [] instActive.id ⟨2026, 3, 5⟩ none none 1) :=
  ⟨normalize_hhmm_spec.1 _ (by decide),
   normalize_hhmm_spec.2.1 _ (by decide) (by decide),
   normalize_hhmm_spec.2.2.1 _ (by decide) (by decide),
   normalize_hhmm_spec.2.2.2.2.1 _ (by decide),
   normalize_hhmm_spec.2.2.2.2.2 [] [] instActive 1 _ ⟨2026, 3, 5⟩ []
     (by decide) (by decide) rfl (by decide) rfl⟩

/-- C10 counterexample: `"09:30\n"` (a trailing newline, accepted by the
`$` of `_TIME_RE`) and `"09:3٥"` (an Arabic-Indic digit, accepted by
`\d`) are not strict `HH:MM` strings in 00:00-23:59, yet
`normalize_hhmm_or_none` raises no error and returns them unchanged, so
they are stored as given. -/
theorem normalize_hhmm_counterexample :
    normalize_hhmm_or_none (some (("09:30\n").data)) =
      .ok (some (("09:30\n").data)) ∧
    specHHMM (("09:30\n").data) = false ∧
    normalize_hhmm_or_none (some (("09:3٥").data)) =
      .ok (some (("09:3٥").data)) ∧
    specHHMM (("09:3٥").data) = false :=
  ⟨rfl, by decide, rfl, by decide⟩

/-- C5: decoding the admin session cookie is total (the model returns an
`AdminSession` on every path, mirroring the source's catch-all returns)
and a session is authenticated only when the cookie splits on `"."`, the
payload decodes, the recomputed HMAC equals the transmitted signature,
the extracted username is non-empty, and `now - issued_at` is at most
`max_age_seconds`; any parse, format or MAC failure yields an
unauthenticated result. -/
theorem admin_session_decode_spec (b64dec : Str → Option Str)
    (jparse : Str → Option (Str × Int)) (secret : Str) (maxAge now : Int)
    (cookie : Option Str) :
    (get_admin_session b64dec jparse secret maxAge now cookie).is_authenticated = true →
      ∃ raw payload_b64 sig payload u iat,
        cookie = some raw ∧
        splitDotOnce raw = some (payload_b64, sig) ∧
        b64dec payload_b64 = some payload ∧
        hmacSign secret payload = sig ∧
        jparse payload = some (u, iat) ∧
        u.isEmpty = false ∧
        now - iat ≤ maxAge ∧
        get_admin_session b64dec jparse secret maxAge now cookie = ⟨some u, iat⟩ := by
  intro h
  cases hc : cookie with
  | none =>
      rw [hc] at h
      simp [get_admin_session, AdminSession.is_authenticated, pyTruthyOptStr] at h
  | some raw =>
      rw [hc] at h
      cases hre : raw.isEmpty with
      | true =>
          simp [get_admin_session, hre, AdminSession.is_authenticated, pyTruthyOptStr] at h
      | false =>
          rcases hsp : splitDotOnce raw with _ | ⟨pb, sig⟩
          · simp [get_admin_session, hre, hsp, AdminSession.is_authenticated,
              pyTruthyOptStr] at h
          · rcases hb : b64dec pb with _ | payload
            · simp [get_admin_session, hre, hsp, hb, AdminSession.is_authenticated,
                pyTruthyOptStr] at h
            · cases hm : (hmacSign secret payload == sig) with
              | false =>
                  simp [get_admin_session, hre, hsp, hb, hm,
                    AdminSession.is_authenticated, pyTruthyOptStr] at h
              | true =>
                  rcases hj : jparse payload with _ | ⟨u, iat⟩
                  · simp [get_admin_session, hre, hsp, hb, hm, hj,
                      AdminSession.is_authenticated, pyTruthyOptStr] at h
                  · cases hu : u.isEmpty with
                    | true =>
                        simp [get_admin_session, hre, hsp, hb, hm, hj, hu,
                          AdminSession.is_authenticated, pyTruthyOptStr] at h
                    | false =>
                        by_cases hexp : maxAge < now - iat
                        · simp [get_admin_session, hre, hsp, hb, hm, hj, hu, hexp,
                            AdminSession.is_authenticated, pyTruthyOptStr] at h
                        · exact ⟨raw, pb, sig, payload, u, iat, rfl, hsp, hb,
                            by simpa using hm, hj, hu, by omega,
                            by simp [get_admin_session, hre, hsp, hb, hm, hj, hu, hexp]⟩

/-- Witness for C5: a well-formed, correctly signed, fresh cookie is
decoded to an authenticated session. -/
theorem admin_session_decode_spec_witness :
    ∃ raw payload_b64 sig payload u iat,
      some sessionCookieFix = some raw ∧
      splitDotOnce raw = some (payload_b64, sig) ∧
      (fun s => some s) payload_b64 = some payload ∧
      hmacSign secretFix payload = sig ∧
      (fun s => some (s, (2 : Int))) payload = some (u, iat) ∧
      u.isEmpty = false ∧
      (3 : Int) - iat ≤ 100 ∧
      get_admin_session (fun s => some s) (fun s => some (s, (2 : Int)))
        secretFix 100 3 (some sessionCookieFix) = ⟨some u, iat⟩ :=
  admin_session_decode_spec (fun s => some s) (fun s => some (s, (2 : Int)))
    secretFix 100 3 (some sessionCookieFix) (by decide)

theorem require_csrf_ok_iff (req : CsrfRequest) :
    require_csrf req = .ok ↔
      req.method ∈ safeMethods ∨
        ∃ sess expected,
          req.session = some sess ∧ sess.isEmpty = false ∧
          lookupStr csrfKey sess = some expected ∧ expected.isEmpty = false ∧
          csrfProvided req = some expected := by
  constructor
  · intro h
    by_cases hs : req.method ∈ safeMethods
    · exact .inl hs
    · right
      unfold require_csrf at h
      rw [if_neg (by simpa using hs)] at h
      rcases hsess : req.session with _ | sess <;> rw [hsess] at h
      · simp at h
      · cases hse : sess.isEmpty <;> simp only [hse] at h
        · rcases hl : lookupStr csrfKey sess with _ | expected <;> rw [hl] at h
          · simp at h
          · cases hee : expected.isEmpty <;> simp only [hee] at h
            · rcases hp : csrfProvided req with _ | p <;> rw [hp] at h
              · simp at h
              · cases hcmp : (p == expected) <;> simp only [hcmp] at h
                · simp at h
                · exact ⟨sess, expected, rfl, hse, hl, hee, by
                    simp only [beq_iff_eq] at hcmp
                    rw [hcmp]⟩
            · simp at h
        · simp at h
  · intro h
    by_cases hs : req.method ∈ safeMethods
    · simp [require_csrf, hs]
    · rcases h with h | ⟨sess, expected, h1, h2, h3, h4, h5⟩
      · exact absurd h hs
      · unfold require_csrf
        rw [if_neg (by simpa using hs), h1]
        simp [h2, h3, h4, h5]

theorem require_csrf_err_shape (req : CsrfRequest) :
    require_csrf req = .ok ∨ ∃ d, require_csrf req = .err 403 d := by
  by_cases hs : req.method ∈ safeMethods
  · left; simp [require_csrf, hs]
  · unfold require_csrf
    rw [if_neg (by simpa using hs)]
    rcases req.session with _ | sess
    · right; exact ⟨msgMissingSession, rfl⟩
    · cases hse : sess.isEmpty <;> simp only [hse]
      · rcases lookupStr csrfKey sess with _ | expected
        · right; exact ⟨msgMissingCsrfInSession, rfl⟩
        · cases hee : expected.isEmpty <;> simp only [hee]
          · rcases csrfProvided req with _ | p
            · right; exact ⟨msgMissingCsrf, rfl⟩
            · cases hcmp : (p == expected) <;> simp only [hcmp]
              · right; exact ⟨msgCsrfFailed, by simp⟩
              · left; simp
          · right; exact ⟨msgMissingCsrfInSession, by simp⟩
      · right; exact ⟨msgMissingSession, by simp⟩

/-- C6: requests with a safe method (GET/HEAD/OPTIONS) always pass the
CSRF check; any other request passes exactly when the session exists and
is non-empty, holds a non-empty expected `csrf_token`, and the client
provided (header, else mirror cookie, else form field) exactly that
token; every rejection is a 403 `CsrfError`.  The check never consults
the admin identity: `require_csrf` takes no admin-session input at all. -/
theorem require_csrf_spec (req : CsrfRequest) :
    (req.method ∈ safeMethods → require_csrf req = .ok) ∧
    (req.method ∉ safeMethods →
      (require_csrf req = .ok ↔
        ∃ sess expected,
          req.session = some sess ∧ sess.isEmpty = false ∧
          lookupStr csrfKey sess = some expected ∧ expected.isEmpty = false ∧
          csrfProvided req = some expected)) ∧
    (require_csrf req = .ok ∨ ∃ d, require_csrf req = .err 403 d) := by
  refine ⟨fun hs => (require_csrf_ok_iff req).mpr (.inl hs), fun hns => ?_,
    require_csrf_err_shape req⟩
  rw [require_csrf_ok_iff req]
  constructor
  · rintro (h | h)
    · exact absurd h hns
    · exact h
  · exact fun h => .inr h

/-- Witness for C6: a GET passes with no token at all; a POST with a
matching header token passes. -/
theorem require_csrf_spec_witness :
    require_csrf reqSafe = .ok ∧ require_csrf reqUnsafeGood = .ok :=
  ⟨(require_csrf_spec reqSafe).1 (by decide),
   ((require_csrf_spec reqUnsafeGood).2.1 (by decide)).mpr
     ⟨[(csrfKey, ("t").data)], ("t").data, rfl, by decide, by decide, by decide,
       by decide⟩⟩

/-- C1 counterexample: the claim fails on the code in two ways.  The
public endpoint `claim_instance_token` refuses a PENDING instance with
HTTP 409, not 403; and in `claim_token` an ACTIVE status is not
sufficient for success: an ACTIVE instance without a `display_name` is
refused with 409 instead of being issued a token. -/
theorem claim_token_counterexample :
    claim_instance_token [] 0 0 instPending = .error ⟨409, .msg msgInstanceIsNotActive⟩ ∧
    instPending.status = InstanceStatus.PENDING ∧
    claim_token [] 0 0 instActiveNoName = .error ⟨409, .msg msgInstanceMisconfigured⟩ ∧
    instActiveNoName.status = InstanceStatus.ACTIVE := by
  refine ⟨rfl, rfl, ?_, rfl⟩
  rfl

/-- C1 (amended): `claim_token` (instances.py) succeeds iff the instance
is ACTIVE and has a truthy `display_name`; a non-ACTIVE status yields
403, an ACTIVE instance without a name yields 409.
`claim_instance_token` (public_instances.py) succeeds iff the instance is
ACTIVE, and refuses any non-ACTIVE instance with 409 (not 403). -/
theorem claim_token_spec (rnd : List Nat) (salt : Nat) (now : Int) (inst : Instance) :
    ((∃ t i', claim_token rnd salt now inst = .ok (t, i')) ↔
      inst.status = InstanceStatus.ACTIVE ∧ pyTruthyOptStr inst.display_name = true) ∧
    (inst.status ≠ InstanceStatus.ACTIVE →
      claim_token rnd salt now inst = .error ⟨403, .msg msgInstanceNotActive⟩) ∧
    (inst.status = InstanceStatus.ACTIVE → pyTruthyOptStr inst.display_name = false →
      claim_token rnd salt now inst = .error ⟨409, .msg msgInstanceMisconfigured⟩) ∧
    ((∃ t i', claim_instance_token rnd salt now inst = .ok (t, i')) ↔
      inst.status = InstanceStatus.ACTIVE) ∧
    (inst.status ≠ InstanceStatus.ACTIVE →
      claim_instance_token rnd salt now inst = .error ⟨409, .msg msgInstanceIsNotActive⟩) := by
  by_cases hst : inst.status = InstanceStatus.ACTIVE
  · cases hdn : pyTruthyOptStr inst.display_name
    · refine ⟨?_, fun h => absurd hst h, fun _ _ => ?_, ?_, fun h => absurd hst h⟩
      · simp [claim_token, hst, hdn]
      · simp [claim_token, hst, hdn]
      · constructor
        · intro _; exact hst
        · intro _
          refine ⟨(rotate_instance_token rnd salt now inst).1,
            (rotate_instance_token rnd salt now inst).2, ?_⟩
          simp [claim_instance_token, hst]
    · refine ⟨?_, fun h => absurd hst h, fun _ hdn' => absurd hdn' (by simp [hdn]),
        ?_, fun h => absurd hst h⟩
      · constructor
        · intro _; exact ⟨hst, rfl⟩
        · intro _
          refine ⟨generate_instance_token rnd,
            ({ inst with
                last_seen_at := some now
                token_hash := some (hash_token salt (generate_instance_token rnd))
                token_issued_at := some now }), ?_⟩
          cases hh : pyTruthyOptStr inst.token_hash <;>
            simp [claim_token, hst, hdn, issue_instance_token_once, hh,
              rotate_instance_token]
      · constructor
        · intro _; exact hst
        · intro _
          refine ⟨(rotate_instance_token rnd salt now inst).1,
            (rotate_instance_token rnd salt now inst).2, ?_⟩
          simp [claim_instance_token, hst]
  · refine ⟨?_, fun _ => by simp [claim_token, hst], fun h => absurd h hst, ?_,
      fun _ => by simp [claim_instance_token, hst]⟩
    · constructor
      · intro ⟨t, i', h⟩
        simp [claim_token, hst] at h
      · intro ⟨h, _⟩; exact absurd h hst
    · constructor
      · intro ⟨t, i', h⟩
        simp [claim_instance_token, hst] at h
      · intro h; exact absurd h hst

/-- Witness for C1 (amended): an ACTIVE named instance gets a token from
both endpoints, a PENDING one gets 403 from `claim_token` and 409 from
`claim_instance_token`. -/
theorem claim_token_spec_witness :
    (∃ t i', claim_token [] 0 0 instActive = .ok (t, i')) ∧
    claim_token [] 0 0 instPending = .error ⟨403, .msg msgInstanceNotActive⟩ ∧
    (∃ t i', claim_instance_token [] 0 0 instActive = .ok (t, i')) ∧
    claim_instance_token [] 0 0 instPending = .error ⟨409, .msg msgInstanceIsNotActive⟩ :=
  ⟨(claim_token_spec [] 0 0 instActive).1.mpr ⟨rfl, by decide⟩,
   (claim_token_spec [] 0 0 instPending).2.1 (by decide),
   (claim_token_spec [] 0 0 instActive).2.2.2.1.mpr rfl,
   (claim_token_spec [] 0 0 instPending).2.2.2.2 (by decide)⟩

/-- C3: `verify_instance_token` rejects malformed tokens by format alone
(the result is `none` for every table content), returns `none` when no
stored hash matches, never raises (it is a total function of the table
and the raw string), and on success returns the first instance in table
order with a non-empty `token_hash` whose hash verifies the token. -/
theorem verify_token_lookup_spec (db : List Instance) (raw : Str) :
    (validate_token_format raw = false → verify_instance_token db raw = none) ∧
    ((∀ j ∈ db, instTokenMatch raw j = false) → verify_instance_token db raw = none) ∧
    (∀ i, verify_instance_token db raw = some i →
      validate_token_format raw = true ∧ instTokenMatch raw i = true ∧
      hashFilter i.token_hash = true ∧
      ∃ pre post, db = pre ++ i :: post ∧ ∀ j ∈ pre, instTokenMatch raw j = false) := by
  refine ⟨fun hv => by simp [verify_instance_token, hv], fun hnone => ?_, fun i hi => ?_⟩
  · cases hv : validate_token_format raw
    · simp [verify_instance_token, hv]
    · rw [verify_instance_token_eq db raw hv]
      exact List.find?_eq_none.mpr (by simpa using hnone)
  · cases hv : validate_token_format raw
    · rw [show verify_instance_token db raw = none from by
        simp [verify_instance_token, hv]] at hi
      cases hi
    · rw [verify_instance_token_eq db raw hv] at hi
      obtain ⟨hp, pre, post, hsplit, hpre⟩ := List.find?_eq_some.mp hi
      exact ⟨rfl, hp, instTokenMatch_hashFilter hp, pre, post, hsplit,
        fun j hj => by simpa using hpre j hj⟩

/-- Witness for C3: a one-row table and the matching token. -/
theorem verify_token_lookup_spec_witness :
    validate_token_format tokFix = true ∧ instTokenMatch tokFix instTokened = true ∧
    hashFilter instTokened.token_hash = true ∧
    ∃ pre post, [instTokened] = pre ++ instTokened :: post ∧
      ∀ j ∈ pre, instTokenMatch tokFix j = false :=
  (verify_token_lookup_spec [instTokened] tokFix).2.2 instTokened (by decide)

/-- C2: for an instance with no stored token hash, the plaintext returned
by `issue_instance_token_once` verifies back to the updated row (the
freshly generated token must not collide with older stored hashes of
other rows, which is the `hfresh` freshness hypothesis); and after
`rotate_instance_token` the previously issued plaintext no longer
verifies to that row (given the rotation drew a different token). -/
theorem token_roundtrip_spec (pre post : List Instance) (inst : Instance)
    (rnd rnd2 : List Nat) (salt salt2 : Nat) (now now2 : Int)
    (hlen : rnd.length = TOKEN_BYTES)
    (hno : pyTruthyOptStr inst.token_hash = false)
    (hfresh : ∀ j ∈ pre, instTokenMatch (generate_instance_token rnd) j = false) :
    (issue_instance_token_once rnd salt now inst).1 = some (generate_instance_token rnd) ∧
    verify_instance_token (pre ++ (issue_instance_token_once rnd salt now inst).2 :: post)
        (generate_instance_token rnd) = some (issue_instance_token_once rnd salt now inst).2 ∧
    (generate_instance_token rnd2 ≠ generate_instance_token rnd →
      verify_instance_token
          (pre ++ (rotate_instance_token rnd2 salt2 now2
              (issue_instance_token_once rnd salt now inst).2).2 :: post)
          (generate_instance_token rnd)
        ≠ some (rotate_instance_token rnd2 salt2 now2
              (issue_instance_token_once rnd salt now inst).2).2) := by
  have hissue : issue_instance_token_once rnd salt now inst =
      (some (generate_instance_token rnd),
        { inst with
            token_hash := some (hash_token salt (generate_instance_token rnd))
            token_issued_at := some now }) := by
    simp [issue_instance_token_once, hno]
  rw [hissue]
  have hmatch : instTokenMatch (generate_instance_token rnd)
      ({ inst with
          token_hash := some (hash_token salt (generate_instance_token rnd))
          token_issued_at := some now }) = true := by
    simp [instTokenMatch, hash_token_not_empty,
      (verify_token_iff salt (generate_instance_token rnd) (generate_instance_token rnd)).mpr rfl]
  refine ⟨rfl, ?_, ?_⟩
  · rw [verify_instance_token_eq _ _ (validate_generate rnd hlen), List.find?_append,
      List.find?_eq_none.mpr (by simpa using hfresh)]
    rw [List.find?_cons_of_pos _ hmatch]
    rfl
  · intro hne h
    have hrot : rotate_instance_token rnd2 salt2 now2
        ({ inst with
            token_hash := some (hash_token salt (generate_instance_token rnd))
            token_issued_at := some now }) =
        (generate_instance_token rnd2,
          { inst with
              token_hash := some (hash_token salt2 (generate_instance_token rnd2))
              token_issued_at := some now2 }) := by
      simp [rotate_instance_token]
    rw [hrot] at h
    rw [verify_instance_token_eq _ _ (validate_generate rnd hlen)] at h
    have hm := List.find?_some h
    simp only [instTokenMatch, hash_token_not_empty, Bool.true_and,
      Bool.not_false, Bool.and_eq_true] at hm
    have := (verify_token_iff salt2 (generate_instance_token rnd2)
      (generate_instance_token rnd)).mp hm
    exact hne this.symm

/-- Witness for C2 on a concrete table: one unrelated hashed row ahead of
the freshly issued one. -/
theorem token_roundtrip_spec_witness :
    (issue_instance_token_once rndFixA 4 9 instActive).1 =
      some (generate_instance_token rndFixA) ∧
    verify_instance_token
        ([instTokened] ++ (issue_instance_token_once rndFixA 4 9 instActive).2 :: [])
        (generate_instance_token rndFixA) =
      some (issue_instance_token_once rndFixA 4 9 instActive).2 ∧
    (generate_instance_token rndFixB ≠ generate_instance_token rndFixA →
      verify_instance_token
          ([instTokened] ++ (rotate_instance_token rndFixB 6 11
              (issue_instance_token_once rndFixA 4 9 instActive).2).2 :: [])
          (generate_instance_token rndFixA)
        ≠ some (rotate_instance_token rndFixB 6 11
              (issue_instance_token_once rndFixA 4 9 instActive).2).2) :=
  token_roundtrip_spec [instTokened] [] instActive rndFixA rndFixB 4 6 9 11
    (by decide) (by decide) (by decide)

theorem registerReuseUpdate_fields (r : Instance) (payload : RegisterPayload)
    (dn : Str) (now : Int) (hdn : dn.isEmpty = false) :
    (registerReuseUpdate r payload dn now).id = r.id ∧
    (registerReuseUpdate r payload dn now).status = r.status ∧
    (registerReuseUpdate r payload dn now).last_seen_at = some now ∧
    (registerReuseUpdate r payload dn now).display_name = some dn := by
  unfold registerReuseUpdate
  by_cases h1 : r.employment_template.isEmpty <;>
    by_cases h2 : pyTruthyOptStr payload.device_info <;>
      simp [h1, h2, hdn]

/-- C9 counterexample: the public register endpoint
(`public_instances.register_instance`, cited by the claim) neither
refuses nor reuses: with a DEACTIVATED row for the same
`(client_type, device_fingerprint)` pair already present it still inserts
a fresh PENDING duplicate. -/
theorem register_counterexample :
    instDeact9.client_type = payload9.client_type ∧
    instDeact9.device_fingerprint = pyStrip payload9.device_fingerprint ∧
    instDeact9.status = InstanceStatus.DEACTIVATED ∧
    (public_register_instance [instDeact9] payload9 (("n9").data) 7).1.length = 2 ∧
    (public_register_instance [instDeact9] payload9 (("n9").data) 7).2.2 =
      InstanceStatus.PENDING := by
  decide

/-- C9 (amended): the claimed behavior holds for the
`instances.register_instance` variant (the one `build_api_router`
mounts): a pair with no matching row creates a fresh PENDING instance,
re-registering while a PENDING or ACTIVE row exists reuses that row
(updating `last_seen_at` and `display_name`) and adds no duplicate, and
any DEACTIVATED row for the pair refuses the registration with 403.  The
duplicated public variant `public_instances.register_instance` instead
always inserts a fresh PENDING row. -/
theorem register_spec (db : List Instance) (payload : RegisterPayload)
    (newId : Str) (now : Int) (s : Str)
    (hdn : payload.display_name = some s)
    (hsne : (pyStrip s).isEmpty = false) :
    ((∀ r ∈ db, ¬(r.client_type = payload.client_type ∧
        r.device_fingerprint = payload.device_fingerprint)) →
      register_instance db payload newId now =
        .ok (db ++ [registerNewInstance payload (pyStrip s) newId now], newId,
          InstanceStatus.PENDING)) ∧
    ((∃ r ∈ db, (r.client_type = payload.client_type ∧
        r.device_fingerprint = payload.device_fingerprint) ∧
        r.status = InstanceStatus.DEACTIVATED) →
      register_instance db payload newId now =
        .error ⟨403, .msg msgInstanceIsDeactivated⟩) ∧
    ((∀ r ∈ db, (r.client_type = payload.client_type ∧
          r.device_fingerprint = payload.device_fingerprint) →
        r.status ≠ InstanceStatus.DEACTIVATED) →
     (∃ r ∈ db, (r.client_type = payload.client_type ∧
          r.device_fingerprint = payload.device_fingerprint) ∧
        (r.status = InstanceStatus.ACTIVE ∨ r.status = InstanceStatus.PENDING)) →
      ∃ chosen, chosen ∈ db ∧
        (chosen.client_type = payload.client_type ∧
          chosen.device_fingerprint = payload.device_fingerprint) ∧
        (chosen.status = InstanceStatus.ACTIVE ∨
          chosen.status = InstanceStatus.PENDING) ∧
        register_instance db payload newId now =
          .ok (db.map (fun r => if decide (r.id = chosen.id) then
                registerReuseUpdate chosen payload (pyStrip s) now else r),
            (registerReuseUpdate chosen payload (pyStrip s) now).id,
            (registerReuseUpdate chosen payload (pyStrip s) now).status) ∧
        (db.map (fun r => if decide (r.id = chosen.id) then
            registerReuseUpdate chosen payload (pyStrip s) now else r)).length =
          db.length ∧
        (registerReuseUpdate chosen payload (pyStrip s) now).id = chosen.id ∧
        (registerReuseUpdate chosen payload (pyStrip s) now).status = chosen.status ∧
        (registerReuseUpdate chosen payload (pyStrip s) now).last_seen_at = some now ∧
        (registerReuseUpdate chosen payload (pyStrip s) now).display_name =
          some (pyStrip s)) ∧
    ((public_register_instance db payload newId now).1.length = db.length + 1) := by
  have hse : s.isEmpty = false := by
    cases s with
    | nil => simp [pyStrip] at hsne
    | cons c cs => rfl
  refine ⟨fun hfresh => ?_, fun hdeact => ?_, fun hnod hex => ?_,
    by simp [public_register_instance]⟩
  · have hrows : registerRows db payload = [] := by
      unfold registerRows
      rw [List.filter_eq_nil_iff.mpr (fun r hr => by simpa using hfresh r hr)]
      exact List.mergeSort_nil
    unfold register_instance
    rw [hdn]
    simp [hse, hsne, hrows, registerNewInstance, pyTruthyOptStr]
  · obtain ⟨r, hr, hpair, hst⟩ := hdeact
    have hany : (registerRows db payload).any
        (fun r => decide (r.status = InstanceStatus.DEACTIVATED)) = true := by
      rw [List.any_eq_true]
      refine ⟨r, ?_, by simp [hst]⟩
      unfold registerRows
      rw [List.mem_mergeSort, List.mem_filter]
      exact ⟨hr, by simpa using hpair⟩
    unfold register_instance
    rw [hdn]
    simp [hse, hsne, hany, pyTruthyOptStr]
  · have hnodeact : (registerRows db payload).any
        (fun r => decide (r.status = InstanceStatus.DEACTIVATED)) = false := by
      rw [List.any_eq_false]
      intro x hx
      unfold registerRows at hx
      rw [List.mem_mergeSort, List.mem_filter] at hx
      have := hnod x hx.1 (by simpa using hx.2)
      simp [this]
    have hfind : ((registerRows db payload).find?
        (fun r => decide (r.status = InstanceStatus.ACTIVE ∨
          r.status = InstanceStatus.PENDING))).isSome = true := by
      rw [List.find?_isSome]
      obtain ⟨r, hr, hpair, hstat⟩ := hex
      refine ⟨r, ?_, by simpa using hstat⟩
      unfold registerRows
      rw [List.mem_mergeSort, List.mem_filter]
      exact ⟨hr, by simpa using hpair⟩
    obtain ⟨reusable, hfound⟩ := Option.isSome_iff_exists.mp hfind
    have hmem := List.mem_of_find?_eq_some hfound
    unfold registerRows at hmem
    rw [List.mem_mergeSort, List.mem_filter] at hmem
    have hstat : reusable.status = InstanceStatus.ACTIVE ∨
        reusable.status = InstanceStatus.PENDING := by
      simpa using List.find?_some hfound
    obtain ⟨hflds1, hflds2, hflds3, hflds4⟩ :=
      registerReuseUpdate_fields reusable payload (pyStrip s) now hsne
    refine ⟨reusable, hmem.1, by simpa using hmem.2, hstat, ?_,
      List.length_map db _, hflds1, hflds2, hflds3, hflds4⟩
    unfold register_instance
    rw [hdn]
    have hfound' : List.find? (fun r => decide (r.status = InstanceStatus.ACTIVE) ||
        decide (r.status = InstanceStatus.PENDING)) (registerRows db payload) =
        some reusable := by
      simpa [Bool.decide_or] using hfound
    simp [hse, hsne, hnodeact, hfound', pyTruthyOptStr]

/-- Witness for C9 (amended): a fresh pair creates a PENDING row; a
DEACTIVATED row for the pair refuses with 403; re-registration against a
PENDING row reuses it; the public variant appends a row. -/
theorem register_spec_witness :
    register_instance [] payloadW (("n1").data) 3 =
      .ok ([] ++ [registerNewInstance payloadW (pyStrip (("Mia").data)) (("n1").data) 3],
        ("n1").data, InstanceStatus.PENDING) ∧
    register_instance [instDeact9] payload9 (("n2").data) 3 =
      .error ⟨403, .msg msgInstanceIsDeactivated⟩ ∧
    (∃ chosen, chosen ∈ [instPending] ∧
        (chosen.client_type = payloadP.client_type ∧
          chosen.device_fingerprint = payloadP.device_fingerprint) ∧
        (chosen.status = InstanceStatus.ACTIVE ∨
          chosen.status = InstanceStatus.PENDING) ∧
        register_instance [instPending] payloadP (("n3").data) 3 =
          .ok ([instPending].map (fun r => if decide (r.id = chosen.id) then
                registerReuseUpdate chosen payloadP (pyStrip (("Petra").data)) 3 else r),
            (registerReuseUpdate chosen payloadP (pyStrip (("Petra").data)) 3).id,
            (registerReuseUpdate chosen payloadP (pyStrip (("Petra").data)) 3).status) ∧
        ([instPending].map (fun r => if decide (r.id = chosen.id) then
            registerReuseUpdate chosen payloadP (pyStrip (("Petra").data)) 3 else r)).length =
          [instPending].length ∧
        (registerReuseUpdate chosen payloadP (pyStrip (("Petra").data)) 3).id = chosen.id ∧
        (registerReuseUpdate chosen payloadP (pyStrip (("Petra").data)) 3).status =
          chosen.status ∧
        (registerReuseUpdate chosen payloadP (pyStrip (("Petra").data)) 3).last_seen_at =
          some (3 : Int) ∧
        (registerReuseUpdate chosen payloadP (pyStrip (("Petra").data)) 3).display_name =
          some (pyStrip (("Petra").data))) ∧
    (public_register_instance [] payloadW (("n4").data) 3).1.length = 0 + 1 :=
  ⟨(register_spec [] payloadW (("n1").data) 3 (("Mia").data) rfl (by decide)).1
     (by simp),
   (register_spec [instDeact9] payload9 (("n2").data) 3 (("Eva").data) rfl (by decide)).2.1
     ⟨instDeact9, by decide, by decide, by decide⟩,
   (register_spec [instPending] payloadP (("n3").data) 3 (("Petra").data) rfl (by decide)).2.2.1
     (by decide) ⟨instPending, by decide, by decide, by decide⟩,
   (register_spec [] payloadW (("n4").data) 3 (("Mia").data) rfl (by decide)).2.2.2⟩

/-- C8 counterexample: the claim also cites `admin_upsert_attendance`, but
that endpoint performs no month-lock check at all (it does not even read
the `attendance_locks` table): with the month `(i1, 2026, 3)` locked, the
admin `PUT` for `2026-03-05` succeeds instead of failing with 423. -/
theorem month_lock_counterexample :
    _is_locked [lockFix] instActive.id 2026 3 = true ∧
    admin_upsert_attendance [] [instActive] adminBodyFix 7 =
      .ok (attWrite [] instActive.id ⟨2026, 3, 5⟩ (some (("08:00").data)) none 7) := by
  constructor
  · decide
  · rfl

/-- C8 (amended): for the instance-facing `PUT /api/v1/attendance`, a lock
row for the date's month makes the upsert fail with HTTP 423 and body
code `ATTENDANCE_MONTH_LOCKED` before any row is touched; without such a
lock — in particular after `unlock_month` removed it — the same write
succeeds.  The admin `PUT /api/v1/admin/attendance` performs no lock
check (see the counterexample). -/
theorem month_lock_spec (att : List Attendance) (locks : List AttendanceLock)
    (inst : Instance) (body : AttendanceUpsertIn) (freshRid : Nat) (day : PyDate)
    (hday : date_fromisoformat body.date = some day) :
    (_is_locked locks inst.id day.year day.month = true →
      upsert_attendance att locks inst body freshRid = .error lockedError ∧
      lockedError = ⟨423, .codeMsg lockedCode lockedMessage⟩) ∧
    (∀ arrival departure,
      parse_hhmm_or_none body.arrival_time = .ok arrival →
      parse_hhmm_or_none body.departure_time = .ok departure →
      (_is_locked locks inst.id day.year day.month = false →
        upsert_attendance att locks inst body freshRid =
          .ok (attWrite att inst.id day arrival departure freshRid)) ∧
      (∀ instances locks',
        unlock_month locks instances inst.id day.year day.month = .ok locks' →
        (∀ l1 ∈ locks, ∀ l2 ∈ locks,
          (l1.instance_id = inst.id ∧ l1.year = day.year ∧ l1.month = day.month) →
          (l2.instance_id = inst.id ∧ l2.year = day.year ∧ l2.month = day.month) →
          l1 = l2) →
        upsert_attendance att locks' inst body freshRid =
          .ok (attWrite att inst.id day arrival departure freshRid))) := by
  constructor
  · intro hl
    refine ⟨?_, rfl⟩
    unfold upsert_attendance
    rw [hday]
    simp [hl]
  · intro arrival departure ha hd
    have hok : ∀ locks2 : List AttendanceLock,
        _is_locked locks2 inst.id day.year day.month = false →
        upsert_attendance att locks2 inst body freshRid =
          .ok (attWrite att inst.id day arrival departure freshRid) := by
      intro locks2 hl
      unfold upsert_attendance
      rw [hday, ha, hd]
      simp [hl]
    refine ⟨hok locks, fun instances locks' hun huniq => ?_⟩
    refine hok locks' ?_
    unfold unlock_month at hun
    split at hun
    · cases hun
    · next inst2 hfi =>
      have hid : inst2.id = inst.id := by simpa using List.find?_some hfi
      split at hun
      · next hlk =>
        injection hun with hun
        subst hun
        unfold _is_locked
        rw [List.any_eq_false]
        intro l hl
        have := List.find?_eq_none.mp hlk l hl
        simpa [hid] using this
      · next lock hlk =>
        injection hun with hun
        subst hun
        have hlock := List.find?_some hlk
        rw [hid] at hlock
        simp only [decide_eq_true_eq] at hlock
        have hlockmem := List.mem_of_find?_eq_some hlk
        unfold _is_locked
        rw [List.any_eq_false]
        intro l hl
        rw [List.mem_filter] at hl
        intro hcon
        simp only [decide_eq_true_eq] at hcon
        have hle : l = lock := huniq l hl.1 lock hlockmem hcon hlock
        subst hle
        simp at hl

/-- Witness for C8 (amended): a locked month rejects the instance `PUT`
with the 423 body; after `unlock_month` the same `PUT` succeeds. -/
theorem month_lock_spec_witness :
    (upsert_attendance [] [lockFix] instActive
        ⟨("2026-03-05").data, some (("08:00").data), none⟩ 7 = .error lockedError ∧
      lockedError = ⟨423, .codeMsg lockedCode lockedMessage⟩) ∧
    unlock_month [lockFix] [instActive] instActive.id 2026 3 = .ok [] ∧
    upsert_attendance [] [] instActive
        ⟨("2026-03-05").data, some (("08:00").data), none⟩ 7 =
      .ok (attWrite [] instActive.id ⟨2026, 3, 5⟩ (some (("08:00").data)) none 7) := by
  refine ⟨?_, rfl, ?_⟩
  · exact (month_lock_spec [] [lockFix] instActive
      ⟨("2026-03-05").data, some (("08:00").data), none⟩ 7 ⟨2026, 3, 5⟩
      (by decide)).1 (by decide)
  · exact ((month_lock_spec [] [lockFix] instActive
      ⟨("2026-03-05").data, some (("08:00").data), none⟩ 7 ⟨2026, 3, 5⟩
      (by decide)).2 (some (("08:00").data)) none rfl rfl).2
      [instActive] [] rfl (by decide)

/-! ## Merge loop lemmas (towards C7) -/

section MergeLemmas

variable {ρ κ : Type} [DecidableEq κ]
variable {rid : ρ → Nat} {instOf : ρ → Str} {keyOf : ρ → κ} {setInst : ρ → Str → ρ}

theorem rid_unique {l : List ρ} (h : List.Pairwise (fun a b => rid a ≠ rid b) l)
    {x y : ρ} (hx : x ∈ l) (hy : y ∈ l) (hxy : rid x = rid y) : x = y := by
  induction l with
  | nil => cases hx
  | cons a tl ih =>
      rcases List.pairwise_cons.mp h with ⟨ha, htl⟩
      rcases List.mem_cons.mp hx with rfl | hx'
      · rcases List.mem_cons.mp hy with rfl | hy'
        · rfl
        · exact absurd hxy (ha y hy')
      · rcases List.mem_cons.mp hy with rfl | hy'
        · exact absurd hxy.symm (ha x hx')
        · exact ih htl hx' hy'

theorem mergeStep_mem (Hr : ∀ r t, rid (setInst r t) = rid r) (tgt : Str)
    (acc : List ρ) (s : ρ) :
    ∀ x ∈ mergeStep rid instOf keyOf setInst tgt acc s,
      ∃ a ∈ acc, rid x = rid a ∧ (x = a ∨ x = setInst a tgt) := by
  intro x hx
  unfold mergeStep at hx
  by_cases hc : acc.any (fun r => decide (instOf r = tgt ∧ keyOf r = keyOf s)) = true
  · rw [if_pos hc] at hx
    exact ⟨x, (List.mem_filter.mp hx).1, rfl, .inl rfl⟩
  · rw [if_neg hc] at hx
    obtain ⟨a, ha, hax⟩ := List.mem_map.mp hx
    by_cases hr : rid a = rid s
    · rw [if_pos (by simpa using hr)] at hax
      exact ⟨a, ha, by rw [← hax, Hr], .inr hax.symm⟩
    · rw [if_neg (by simpa using hr)] at hax
      exact ⟨a, ha, by rw [hax], .inl hax.symm⟩

theorem mergeStep_mem_src (Hr : ∀ r t, rid (setInst r t) = rid r) (tgt : Str)
    (acc : List ρ) (s : ρ)
    (hp : List.Pairwise (fun a b => rid a ≠ rid b) acc) (hs : s ∈ acc) :
    ∀ x ∈ mergeStep rid instOf keyOf setInst tgt acc s,
      x ∈ acc ∨ x = setInst s tgt := by
  intro x hx
  unfold mergeStep at hx
  by_cases hc : acc.any (fun r => decide (instOf r = tgt ∧ keyOf r = keyOf s)) = true
  · rw [if_pos hc] at hx
    exact .inl (List.mem_filter.mp hx).1
  · rw [if_neg hc] at hx
    obtain ⟨a, ha, hax⟩ := List.mem_map.mp hx
    by_cases hr : rid a = rid s
    · obtain rfl : a = s := rid_unique hp ha hs hr
      rw [if_pos (by simpa using hr)] at hax
      exact .inr hax.symm
    · rw [if_neg (by simpa using hr)] at hax
      exact .inl (hax ▸ ha)

theorem mergeStep_keeps (tgt : Str) (acc : List ρ) (s : ρ) (x : ρ)
    (hx : x ∈ acc) (hrid : rid x ≠ rid s) :
    x ∈ mergeStep rid instOf keyOf setInst tgt acc s := by
  unfold mergeStep
  by_cases hc : acc.any (fun r => decide (instOf r = tgt ∧ keyOf r = keyOf s)) = true
  · rw [if_pos hc]
    exact List.mem_filter.mpr ⟨hx, by simp [hrid]⟩
  · rw [if_neg hc]
    exact List.mem_map.mpr ⟨x, hx, by rw [if_neg (by simpa using hrid)]⟩

theorem mergeStep_pairwise (Hr : ∀ r t, rid (setInst r t) = rid r) (tgt : Str)
    (acc : List ρ) (s : ρ)
    (h : List.Pairwise (fun a b => rid a ≠ rid b) acc) :
    List.Pairwise (fun a b => rid a ≠ rid b)
      (mergeStep rid instOf keyOf setInst tgt acc s) := by
  unfold mergeStep
  by_cases hc : acc.any (fun r => decide (instOf r = tgt ∧ keyOf r = keyOf s)) = true
  · rw [if_pos hc]
    exact List.Pairwise.filter _ h
  · rw [if_neg hc]
    rw [List.pairwise_map]
    have hga : ∀ y : ρ,
        rid (if decide (rid y = rid s) = true then setInst y tgt else y) = rid y := by
      intro y
      by_cases hy : rid y = rid s <;> simp [hy, Hr]
    exact h.imp (fun hab => by rw [hga, hga]; exact hab)

theorem mergeFold_pairwise (Hr : ∀ r t, rid (setInst r t) = rid r) (tgt : Str) :
    ∀ (srcRows acc : List ρ),
      List.Pairwise (fun a b => rid a ≠ rid b) acc →
      List.Pairwise (fun a b => rid a ≠ rid b)
        (List.foldl (mergeStep rid instOf keyOf setInst tgt) acc srcRows)
  | [], _, h => h
  | s :: rest, acc, h => by
      rw [List.foldl_cons]
      exact mergeFold_pairwise Hr tgt rest _ (mergeStep_pairwise Hr tgt acc s h)

theorem mergeFold_keeps (tgt : Str) :
    ∀ (srcRows acc : List ρ) (x : ρ), x ∈ acc → (∀ s ∈ srcRows, rid s ≠ rid x) →
      x ∈ List.foldl (mergeStep rid instOf keyOf setInst tgt) acc srcRows
  | [], _, _, hx, _ => hx
  | s :: rest, acc, x, hx, hs => by
      rw [List.foldl_cons]
      exact mergeFold_keeps tgt rest _ x
        (mergeStep_keeps tgt acc s x hx (fun h => hs s (List.mem_cons_self s rest) h.symm))
        (fun s' hs' => hs s' (List.mem_cons_of_mem s hs'))

theorem mergeFold_rid_origin (Hr : ∀ r t, rid (setInst r t) = rid r) (tgt : Str) :
    ∀ (srcRows acc : List ρ),
      ∀ x ∈ List.foldl (mergeStep rid instOf keyOf setInst tgt) acc srcRows,
        ∃ a ∈ acc, rid x = rid a
  | [], _, x, hx => ⟨x, hx, rfl⟩
  | s :: rest, acc, x, hx => by
      rw [List.foldl_cons] at hx
      obtain ⟨a, ha, hra⟩ := mergeFold_rid_origin Hr tgt rest _ x hx
      obtain ⟨b, hb, hrb, _⟩ := mergeStep_mem Hr tgt acc s a ha
      exact ⟨b, hb, hra.trans hrb⟩

theorem mergeFold_origin (Hr : ∀ r t, rid (setInst r t) = rid r)
    (Hi : ∀ r t, instOf (setInst r t) = t) (src tgt : Str) (hst : src ≠ tgt) :
    ∀ (srcRows acc : List ρ),
      List.Pairwise (fun a b => rid a ≠ rid b) acc →
      List.Pairwise (fun a b => rid a ≠ rid b) srcRows →
      (∀ s ∈ srcRows, s ∈ acc ∧ instOf s = src) →
      ∀ x ∈ List.foldl (mergeStep rid instOf keyOf setInst tgt) acc srcRows,
        x ∈ acc ∨ ∃ a ∈ acc, instOf a = src ∧ x = setInst a tgt
  | [], _, _, _, _, x, hx => .inl hx
  | s :: rest, acc, hpa, hps, hsub, x, hx => by
      rw [List.foldl_cons] at hx
      have hs_acc := (hsub s (List.mem_cons_self s rest)).1
      have hs_src := (hsub s (List.mem_cons_self s rest)).2
      rcases List.pairwise_cons.mp hps with ⟨hhead, hrest⟩
      have hsub' : ∀ s' ∈ rest, s' ∈ mergeStep rid instOf keyOf setInst tgt acc s ∧
          instOf s' = src := fun s' hs' =>
        ⟨mergeStep_keeps tgt acc s s' (hsub s' (List.mem_cons_of_mem s hs')).1
            (fun h => hhead s' hs' h.symm),
          (hsub s' (List.mem_cons_of_mem s hs')).2⟩
      rcases mergeFold_origin Hr Hi src tgt hst rest _
          (mergeStep_pairwise Hr tgt acc s hpa) hrest hsub' x hx with hx' | ⟨a', ha', hia', hxa'⟩
      · rcases mergeStep_mem_src Hr tgt acc s hpa hs_acc x hx' with h | h
        · exact .inl h
        · exact .inr ⟨s, hs_acc, hs_src, h⟩
      · rcases mergeStep_mem_src Hr tgt acc s hpa hs_acc a' ha' with h | h
        · exact .inr ⟨a', h, hia', hxa'⟩
        · rw [h, Hi] at hia'
          exact absurd hia'.symm hst

theorem mergeFold_drop (Hr : ∀ r t, rid (setInst r t) = rid r)
    (src tgt : Str) (hst : src ≠ tgt) :
    ∀ (srcRows acc : List ρ) (r : ρ),
      List.Pairwise (fun a b => rid a ≠ rid b) acc →
      List.Pairwise (fun a b => rid a ≠ rid b) srcRows →
      (∀ s ∈ srcRows, s ∈ acc ∧ instOf s = src) →
      r ∈ srcRows →
      (∃ t ∈ acc, instOf t = tgt ∧ keyOf t = keyOf r) →
      ∀ x ∈ List.foldl (mergeStep rid instOf keyOf setInst tgt) acc srcRows,
        rid x ≠ rid r
  | [], _, r, _, _, _, hr, _ => absurd hr (List.not_mem_nil r)
  | s :: rest, acc, r, hpa, hps, hsub, hr, ht => by
      rw [List.foldl_cons]
      have hs_acc := (hsub s (List.mem_cons_self s rest)).1
      have hs_src := (hsub s (List.mem_cons_self s rest)).2
      rcases List.pairwise_cons.mp hps with ⟨hhead, hrest⟩
      by_cases hrs : rid s = rid r
      · obtain rfl : s = r := rid_unique hpa hs_acc (hsub r hr).1 hrs
        obtain ⟨t, htmem, hti, htk⟩ := ht
        have hc : acc.any (fun x => decide (instOf x = tgt ∧ keyOf x = keyOf s)) = true :=
          List.any_eq_true.mpr ⟨t, htmem, by simp [hti, htk]⟩
        intro x hx hxr
        rw [show mergeStep rid instOf keyOf setInst tgt acc s =
            acc.filter (fun q => !(decide (rid q = rid s))) from by
          unfold mergeStep; rw [if_pos hc]] at hx
        obtain ⟨a, ha, hra⟩ := mergeFold_rid_origin Hr tgt rest _ x hx
        have hfa := (List.mem_filter.mp ha).2
        rw [hxr] at hra
        simp [← hra] at hfa
      · have hr' : r ∈ rest := by
          rcases List.mem_cons.mp hr with rfl | h
          · exact absurd rfl hrs
          · exact h
        have hsub' : ∀ s' ∈ rest, s' ∈ mergeStep rid instOf keyOf setInst tgt acc s ∧
            instOf s' = src := fun s' hs' =>
          ⟨mergeStep_keeps tgt acc s s' (hsub s' (List.mem_cons_of_mem s hs')).1
              (fun h => hhead s' hs' h.symm),
            (hsub s' (List.mem_cons_of_mem s hs')).2⟩
        obtain ⟨t, htmem, hti, htk⟩ := ht
        have htrid : rid t ≠ rid s := by
          intro h
          obtain rfl : t = s := rid_unique hpa htmem hs_acc h
          rw [hti] at hs_src
          exact hst hs_src.symm
        exact mergeFold_drop Hr src tgt hst rest _ r
          (mergeStep_pairwise Hr tgt acc s hpa) hrest hsub' hr'
          ⟨t, mergeStep_keeps tgt acc s t htmem htrid, hti, htk⟩

theorem mergeFold_move (Hr : ∀ r t, rid (setInst r t) = rid r)
    (Hk : ∀ r t, keyOf (setInst r t) = keyOf r)
    (Hi : ∀ r t, instOf (setInst r t) = t)
    (src tgt : Str) (hst : src ≠ tgt) :
    ∀ (srcRows acc : List ρ) (r : ρ),
      List.Pairwise (fun a b => rid a ≠ rid b) acc →
      List.Pairwise (fun a b => rid a ≠ rid b) srcRows →
      (∀ s ∈ srcRows, s ∈ acc ∧ instOf s = src) →
      (∀ s ∈ srcRows, ∀ s' ∈ srcRows, keyOf s = keyOf s' → rid s = rid s') →
      r ∈ srcRows →
      (¬ ∃ t ∈ acc, instOf t = tgt ∧ keyOf t = keyOf r) →
      setInst r tgt ∈ List.foldl (mergeStep rid instOf keyOf setInst tgt) acc srcRows
  | [], _, r, _, _, _, _, hr, _ => absurd hr (List.not_mem_nil r)
  | s :: rest, acc, r, hpa, hps, hsub, hkey, hr, hnt => by
      rw [List.foldl_cons]
      have hs_acc := (hsub s (List.mem_cons_self s rest)).1
      have hs_src := (hsub s (List.mem_cons_self s rest)).2
      rcases List.pairwise_cons.mp hps with ⟨hhead, hrest⟩
      by_cases hrs : rid s = rid r
      · obtain rfl : s = r := rid_unique hpa hs_acc (hsub r hr).1 hrs
        have hc : acc.any (fun x => decide (instOf x = tgt ∧ keyOf x = keyOf s)) = false := by
          rw [List.any_eq_false]
          intro t htm hcon
          simp only [decide_eq_true_eq] at hcon
          exact hnt ⟨t, htm, hcon.1, hcon.2⟩
        have hstep : mergeStep rid instOf keyOf setInst tgt acc s =
            acc.map (fun q => if decide (rid q = rid s) = true then setInst q tgt else q) := by
          unfold mergeStep
          rw [if_neg (fun hcon => by rw [hc] at hcon; cases hcon)]
        have hmem : setInst s tgt ∈ mergeStep rid instOf keyOf setInst tgt acc s := by
          rw [hstep]
          exact List.mem_map.mpr ⟨s, hs_acc, by simp⟩
        exact mergeFold_keeps tgt rest _ (setInst s tgt) hmem
          (fun s' hs' h => hhead s' hs' (by rw [h, Hr]))
      · have hr' : r ∈ rest := by
          rcases List.mem_cons.mp hr with rfl | h
          · exact absurd rfl hrs
          · exact h
        have hsub' : ∀ s' ∈ rest, s' ∈ mergeStep rid instOf keyOf setInst tgt acc s ∧
            instOf s' = src := fun s' hs' =>
          ⟨mergeStep_keeps tgt acc s s' (hsub s' (List.mem_cons_of_mem s hs')).1
              (fun h => hhead s' hs' h.symm),
            (hsub s' (List.mem_cons_of_mem s hs')).2⟩
        have hnt' : ¬ ∃ t ∈ mergeStep rid instOf keyOf setInst tgt acc s,
            instOf t = tgt ∧ keyOf t = keyOf r := by
          rintro ⟨t, htm, hti, htk⟩
          rcases mergeStep_mem_src Hr tgt acc s hpa hs_acc t htm with h | h
          · exact hnt ⟨t, h, hti, htk⟩
          · rw [h, Hk] at htk
            exact hrs (hkey s (List.mem_cons_self s rest) r hr htk)
        exact mergeFold_move Hr Hk Hi src tgt hst rest _ r
          (mergeStep_pairwise Hr tgt acc s hpa) hrest hsub'
          (fun a ha b hb => hkey a (List.mem_cons_of_mem s ha) b (List.mem_cons_of_mem s hb))
          hr' hnt'

theorem srcRows_pairwise {db : List ρ} (src : Str)
    (hp : List.Pairwise (fun a b => rid a ≠ rid b) db) :
    List.Pairwise (fun a b => rid a ≠ rid b)
      (db.filter (fun r => decide (instOf r = src))) :=
  List.Pairwise.filter _ hp

theorem srcRows_sub {db : List ρ} (src : Str) :
    ∀ s ∈ db.filter (fun r => decide (instOf r = src)), s ∈ db ∧ instOf s = src :=
  fun s hs => ⟨(List.mem_filter.mp hs).1, by simpa using (List.mem_filter.mp hs).2⟩

theorem mergeRows_pairwise (Hr : ∀ r t, rid (setInst r t) = rid r)
    (db : List ρ) (src tgt : Str)
    (hp : List.Pairwise (fun a b => rid a ≠ rid b) db) :
    List.Pairwise (fun a b => rid a ≠ rid b)
      (mergeRows rid instOf keyOf setInst db src tgt) := by
  unfold mergeRows
  exact mergeFold_pairwise Hr tgt _ db hp

theorem mergeRows_keeps (db : List ρ) (src tgt : Str)
    (hp : List.Pairwise (fun a b => rid a ≠ rid b) db)
    (r : ρ) (hr : r ∈ db) (hi : instOf r ≠ src) :
    r ∈ mergeRows rid instOf keyOf setInst db src tgt := by
  unfold mergeRows
  refine mergeFold_keeps tgt _ db r hr (fun s hs h => ?_)
  obtain rfl : s = r := rid_unique hp (srcRows_sub src s hs).1 hr h
  exact hi (srcRows_sub src s hs).2

theorem mergeRows_rid_origin (Hr : ∀ r t, rid (setInst r t) = rid r)
    (db : List ρ) (src tgt : Str) :
    ∀ x ∈ mergeRows rid instOf keyOf setInst db src tgt, ∃ a ∈ db, rid x = rid a := by
  unfold mergeRows
  exact mergeFold_rid_origin Hr tgt _ db

theorem mergeRows_origin (Hr : ∀ r t, rid (setInst r t) = rid r)
    (Hi : ∀ r t, instOf (setInst r t) = t)
    (db : List ρ) (src tgt : Str) (hst : src ≠ tgt)
    (hp : List.Pairwise (fun a b => rid a ≠ rid b) db) :
    ∀ x ∈ mergeRows rid instOf keyOf setInst db src tgt,
      x ∈ db ∨ ∃ a ∈ db, instOf a = src ∧ x = setInst a tgt := by
  unfold mergeRows
  exact mergeFold_origin Hr Hi src tgt hst _ db hp (srcRows_pairwise src hp)
    (srcRows_sub src)

theorem mergeRows_drop (Hr : ∀ r t, rid (setInst r t) = rid r)
    (db : List ρ) (src tgt : Str) (hst : src ≠ tgt)
    (hp : List.Pairwise (fun a b => rid a ≠ rid b) db)
    (r : ρ) (hr : r ∈ db) (hi : instOf r = src)
    (ht : ∃ t ∈ db, instOf t = tgt ∧ keyOf t = keyOf r) :
    ∀ x ∈ mergeRows rid instOf keyOf setInst db src tgt, rid x ≠ rid r := by
  unfold mergeRows
  exact mergeFold_drop Hr src tgt hst _ db r hp (srcRows_pairwise src hp)
    (srcRows_sub src) (List.mem_filter.mpr ⟨hr, by simp [hi]⟩) ht

theorem mergeRows_move (Hr : ∀ r t, rid (setInst r t) = rid r)
    (Hk : ∀ r t, keyOf (setInst r t) = keyOf r)
    (Hi : ∀ r t, instOf (setInst r t) = t)
    (db : List ρ) (src tgt : Str) (hst : src ≠ tgt)
    (hp : List.Pairwise (fun a b => rid a ≠ rid b) db)
    (h6 : ∀ s ∈ db, ∀ s' ∈ db, instOf s = src → instOf s' = src →
      keyOf s = keyOf s' → rid s = rid s')
    (r : ρ) (hr : r ∈ db) (hi : instOf r = src)
    (hnt : ¬ ∃ t ∈ db, instOf t = tgt ∧ keyOf t = keyOf r) :
    setInst r tgt ∈ mergeRows rid instOf keyOf setInst db src tgt := by
  unfold mergeRows
  exact mergeFold_move Hr Hk Hi src tgt hst _ db r hp (srcRows_pairwise src hp)
    (srcRows_sub src)
    (fun a ha b hb => h6 a (srcRows_sub src a ha).1 b (srcRows_sub src b hb).1
      (srcRows_sub src a ha).2 (srcRows_sub src b hb).2)
    (List.mem_filter.mpr ⟨hr, by simp [hi]⟩) hnt

theorem mergeRows_uniqSrc (Hr : ∀ r t, rid (setInst r t) = rid r)
    (Hi : ∀ r t, instOf (setInst r t) = t)
    (db : List ρ) (src tgt : Str) (hst : src ≠ tgt)
    (hp : List.Pairwise (fun a b => rid a ≠ rid b) db)
    (huq : ∀ x ∈ db, ∀ y ∈ db, instOf x = instOf y → instOf x ≠ tgt →
      keyOf x = keyOf y → rid x = rid y) :
    ∀ x ∈ mergeRows rid instOf keyOf setInst db src tgt,
      ∀ y ∈ mergeRows rid instOf keyOf setInst db src tgt,
        instOf x = instOf y → instOf x ≠ tgt → keyOf x = keyOf y → rid x = rid y := by
  intro x hx y hy hixy hixt hk
  have hx' : x ∈ db := by
    rcases mergeRows_origin Hr Hi db src tgt hst hp x hx with h | ⟨a, _, _, hxa⟩
    · exact h
    · rw [hxa, Hi] at hixt
      exact absurd rfl hixt
  have hy' : y ∈ db := by
    rcases mergeRows_origin Hr Hi db src tgt hst hp y hy with h | ⟨a, _, _, hya⟩
    · exact h
    · rw [hixy, hya, Hi] at hixt
      exact absurd rfl hixt
  exact huq x hx' y hy' hixy hixt hk

theorem mergeMany_cons (db : List ρ) (iid : Str) (rest : List Str) (tgt : Str) :
    mergeMany rid instOf keyOf setInst db (iid :: rest) tgt =
      mergeMany rid instOf keyOf setInst
        (mergeRows rid instOf keyOf setInst db iid tgt) rest tgt := by
  unfold mergeMany
  rw [List.foldl_cons]

theorem mergeMany_pairwise (Hr : ∀ r t, rid (setInst r t) = rid r) (tgt : Str) :
    ∀ (ids : List Str) (db : List ρ),
      List.Pairwise (fun a b => rid a ≠ rid b) db →
      List.Pairwise (fun a b => rid a ≠ rid b)
        (mergeMany rid instOf keyOf setInst db ids tgt)
  | [], _, hp => hp
  | iid :: rest, db, hp => by
      rw [mergeMany_cons]
      exact mergeMany_pairwise Hr tgt rest _ (mergeRows_pairwise Hr db iid tgt hp)

theorem mergeMany_rid_origin (Hr : ∀ r t, rid (setInst r t) = rid r) (tgt : Str) :
    ∀ (ids : List Str) (db : List ρ),
      ∀ x ∈ mergeMany rid instOf keyOf setInst db ids tgt, ∃ a ∈ db, rid x = rid a
  | [], _, x, hx => ⟨x, hx, rfl⟩
  | iid :: rest, db, x, hx => by
      rw [mergeMany_cons] at hx
      obtain ⟨a, ha, hra⟩ := mergeMany_rid_origin Hr tgt rest _ x hx
      obtain ⟨b, hb, hrb⟩ := mergeRows_rid_origin Hr db iid tgt a ha
      exact ⟨b, hb, hra.trans hrb⟩

theorem mergeMany_keeps_tgt (Hr : ∀ r t, rid (setInst r t) = rid r) (tgt : Str) :
    ∀ (ids : List Str) (db : List ρ) (r : ρ),
      List.Pairwise (fun a b => rid a ≠ rid b) db →
      tgt ∉ ids → r ∈ db → instOf r = tgt →
      r ∈ mergeMany rid instOf keyOf setInst db ids tgt
  | [], _, _, _, _, hr, _ => hr
  | iid :: rest, db, r, hp, hni, hr, hi => by
      rw [mergeMany_cons]
      have hit : instOf r ≠ iid := by
        rw [hi]
        exact fun h => hni (h ▸ List.mem_cons_self iid rest)
      exact mergeMany_keeps_tgt Hr tgt rest _ r
        (mergeRows_pairwise Hr db iid tgt hp)
        (fun h => hni (List.mem_cons_of_mem iid h))
        (mergeRows_keeps db iid tgt hp r hr hit) hi

theorem mergeMany_drop (Hr : ∀ r t, rid (setInst r t) = rid r) (tgt : Str) :
    ∀ (ids : List Str) (db : List ρ) (r : ρ),
      List.Pairwise (fun a b => rid a ≠ rid b) db →
      tgt ∉ ids → r ∈ db → instOf r ∈ ids →
      (∃ t ∈ db, instOf t = tgt ∧ keyOf t = keyOf r) →
      ∀ x ∈ mergeMany rid instOf keyOf setInst db ids tgt, rid x ≠ rid r
  | [], _, r, _, _, _, hin, _ => absurd hin (List.not_mem_nil _)
  | iid :: rest, db, r, hp, hni, hr, hin, ht => by
      rw [mergeMany_cons]
      have hst : iid ≠ tgt := fun h => hni (h ▸ List.mem_cons_self iid rest)
      by_cases hi : instOf r = iid
      · intro x hx
        obtain ⟨a, ha, hra⟩ := mergeMany_rid_origin Hr tgt rest _ x hx
        have := mergeRows_drop Hr db iid tgt hst hp r hr hi ht a ha
        rw [hra]
        exact this
      · have hin' : instOf r ∈ rest := by
          rcases List.mem_cons.mp hin with h | h
          · exact absurd h hi
          · exact h
        obtain ⟨t, htm, hti, htk⟩ := ht
        have hti' : instOf t ≠ iid := by
          rw [hti]; exact fun h => hst h.symm
        exact mergeMany_drop Hr tgt rest _ r
          (mergeRows_pairwise Hr db iid tgt hp)
          (fun h => hni (List.mem_cons_of_mem iid h))
          (mergeRows_keeps db iid tgt hp r hr hi) hin'
          ⟨t, mergeRows_keeps db iid tgt hp t htm hti', hti, htk⟩

theorem mergeMany_uniqSrc (Hr : ∀ r t, rid (setInst r t) = rid r)
    (Hi : ∀ r t, instOf (setInst r t) = t) (tgt : Str) :
    ∀ (ids : List Str) (db : List ρ),
      List.Pairwise (fun a b => rid a ≠ rid b) db →
      tgt ∉ ids →
      (∀ x ∈ db, ∀ y ∈ db, instOf x = instOf y → instOf x ≠ tgt →
        keyOf x = keyOf y → rid x = rid y) →
      ∀ x ∈ mergeMany rid instOf keyOf setInst db ids tgt,
        ∀ y ∈ mergeMany rid instOf keyOf setInst db ids tgt,
          instOf x = instOf y → instOf x ≠ tgt → keyOf x = keyOf y → rid x = rid y
  | [], _, _, _, huq => huq
  | iid :: rest, db, hp, hni, huq => by
      rw [mergeMany_cons]
      have hst : iid ≠ tgt := fun h => hni (h ▸ List.mem_cons_self iid rest)
      exact mergeMany_uniqSrc Hr Hi tgt rest _
        (mergeRows_pairwise Hr db iid tgt hp)
        (fun h => hni (List.mem_cons_of_mem iid h))
        (mergeRows_uniqSrc Hr Hi db iid tgt hst hp huq)

theorem mergeMany_present (Hr : ∀ r t, rid (setInst r t) = rid r)
    (Hk : ∀ r t, keyOf (setInst r t) = keyOf r)
    (Hi : ∀ r t, instOf (setInst r t) = t) (tgt : Str) :
    ∀ (ids : List Str) (db : List ρ) (r : ρ),
      List.Pairwise (fun a b => rid a ≠ rid b) db →
      tgt ∉ ids →
      (∀ x ∈ db, ∀ y ∈ db, instOf x = instOf y → instOf x ≠ tgt →
        keyOf x = keyOf y → rid x = rid y) →
      r ∈ db → instOf r ∈ ids →
      ∃ x ∈ mergeMany rid instOf keyOf setInst db ids tgt,
        instOf x = tgt ∧ keyOf x = keyOf r
  | [], _, r, _, _, _, _, hin => absurd hin (List.not_mem_nil _)
  | iid :: rest, db, r, hp, hni, huq, hr, hin => by
      rw [mergeMany_cons]
      have hst : iid ≠ tgt := fun h => hni (h ▸ List.mem_cons_self iid rest)
      have hp' : List.Pairwise (fun a b => rid a ≠ rid b)
          (mergeRows rid instOf keyOf setInst db iid tgt) :=
        mergeRows_pairwise Hr db iid tgt hp
      have hni' : tgt ∉ rest := fun h => hni (List.mem_cons_of_mem iid h)
      by_cases hi : instOf r = iid
      · by_cases hex : ∃ t ∈ db, instOf t = tgt ∧ keyOf t = keyOf r
        · obtain ⟨t, htm, hti, htk⟩ := hex
          have hti' : instOf t ≠ iid := by
            rw [hti]; exact fun h => hst h.symm
          exact ⟨t, mergeMany_keeps_tgt Hr tgt rest _ t hp' hni'
            (mergeRows_keeps db iid tgt hp t htm hti') hti, hti, htk⟩
        · have hmv := mergeRows_move Hr Hk Hi db iid tgt hst hp
            (fun s hs s' hs' his his' hk =>
              huq s hs s' hs' (his.trans his'.symm) (his ▸ hst) hk)
            r hr hi hex
          exact ⟨setInst r tgt,
            mergeMany_keeps_tgt Hr tgt rest _ (setInst r tgt) hp' hni' hmv (Hi r tgt),
            Hi r tgt, Hk r tgt⟩
      · have hin' : instOf r ∈ rest := by
          rcases List.mem_cons.mp hin with h | h
          · exact absurd h hi
          · exact h
        exact mergeMany_present Hr Hk Hi tgt rest _ r hp' hni'
          (mergeRows_uniqSrc Hr Hi db iid tgt hst hp huq)
          (mergeRows_keeps db iid tgt hp r hr hi) hin'

theorem mergeMany_move (Hr : ∀ r t, rid (setInst r t) = rid r)
    (Hk : ∀ r t, keyOf (setInst r t) = keyOf r)
    (Hi : ∀ r t, instOf (setInst r t) = t) (tgt : Str) :
    ∀ (ids : List Str) (db : List ρ) (r : ρ),
      List.Pairwise (fun a b => rid a ≠ rid b) db →
      tgt ∉ ids →
      (∀ x ∈ db, ∀ y ∈ db, instOf x = instOf y → instOf x ≠ tgt →
        keyOf x = keyOf y → rid x = rid y) →
      r ∈ db → instOf r ∈ ids →
      (∀ r' ∈ db, instOf r' ∈ ids → keyOf r' = keyOf r → r' = r) →
      (¬ ∃ t ∈ db, instOf t = tgt ∧ keyOf t = keyOf r) →
      setInst r tgt ∈ mergeMany rid instOf keyOf setInst db ids tgt
  | [], _, r, _, _, _, _, hin, _, _ => absurd hin (List.not_mem_nil _)
  | iid :: rest, db, r, hp, hni, huq, hr, hin, honly, hnt => by
      rw [mergeMany_cons]
      have hst : iid ≠ tgt := fun h => hni (h ▸ List.mem_cons_self iid rest)
      have hp' : List.Pairwise (fun a b => rid a ≠ rid b)
          (mergeRows rid instOf keyOf setInst db iid tgt) :=
        mergeRows_pairwise Hr db iid tgt hp
      have hni' : tgt ∉ rest := fun h => hni (List.mem_cons_of_mem iid h)
      by_cases hi : instOf r = iid
      · have hmv := mergeRows_move Hr Hk Hi db iid tgt hst hp
          (fun s hs s' hs' his his' hk =>
            huq s hs s' hs' (his.trans his'.symm) (his ▸ hst) hk)
          r hr hi hnt
        exact mergeMany_keeps_tgt Hr tgt rest _ (setInst r tgt) hp' hni' hmv (Hi r tgt)
      · have hin' : instOf r ∈ rest := by
          rcases List.mem_cons.mp hin with h | h
          · exact absurd h hi
          · exact h
        have honly' : ∀ r' ∈ mergeRows rid instOf keyOf setInst db iid tgt,
            instOf r' ∈ rest → keyOf r' = keyOf r → r' = r := by
          intro r' hr' hir' hkr'
          have hnt' : instOf r' ≠ tgt := fun h => hni' (h ▸ hir')
          have hr'db : r' ∈ db := by
            rcases mergeRows_origin Hr Hi db iid tgt hst hp r' hr' with h | ⟨a, _, _, hra⟩
            · exact h
            · rw [hra, Hi] at hnt'
              exact absurd rfl hnt'
          exact honly r' hr'db (List.mem_cons_of_mem iid hir') hkr'
        have hnt'' : ¬ ∃ t ∈ mergeRows rid instOf keyOf setInst db iid tgt,
            instOf t = tgt ∧ keyOf t = keyOf r := by
          rintro ⟨t, htm, hti, htk⟩
          rcases mergeRows_origin Hr Hi db iid tgt hst hp t htm with h | ⟨a, ha, hia, hta⟩
          · exact hnt ⟨t, h, hti, htk⟩
          · rw [hta, Hk] at htk
            have : a = r := honly a ha (hia ▸ List.mem_cons_self iid rest) htk
            rw [this] at hia
            exact hi hia
        exact mergeMany_move Hr Hk Hi tgt rest _ r hp' hni'
          (mergeRows_uniqSrc Hr Hi db iid tgt hst hp huq)
          (mergeRows_keeps db iid tgt hp r hr hi) hin' honly' hnt''

end MergeLemmas

/-! ## Endpoint-level merge lemmas -/

theorem dedup_fold_props (tid : Str) :
    ∀ (ids acc : List Str), (∀ iid ∈ acc, iid ≠ tid) → acc.Nodup →
      (∀ iid ∈ List.foldl (dedupStep tid) acc ids, iid ≠ tid) ∧
      (List.foldl (dedupStep tid) acc ids).Nodup
  | [], _, h1, h2 => ⟨h1, h2⟩
  | iid :: rest, acc, h1, h2 => by
      rw [List.foldl_cons]
      by_cases e1 : iid.isEmpty = true
      · rw [show dedupStep tid acc iid = acc from by unfold dedupStep; rw [if_pos e1]]
        exact dedup_fold_props tid rest acc h1 h2
      · by_cases e2 : iid = tid
        · rw [show dedupStep tid acc iid = acc from by
            unfold dedupStep; rw [if_neg e1, if_pos (by simpa using e2)]]
          exact dedup_fold_props tid rest acc h1 h2
        · by_cases e3 : iid ∈ acc
          · rw [show dedupStep tid acc iid = acc from by
              unfold dedupStep
              rw [if_neg e1, if_neg (by simpa using e2), if_pos (by simpa using e3)]]
            exact dedup_fold_props tid rest acc h1 h2
          · rw [show dedupStep tid acc iid = acc ++ [iid] from by
              unfold dedupStep
              rw [if_neg e1, if_neg (by simpa using e2), if_neg (by simpa using e3)]]
            refine dedup_fold_props tid rest (acc ++ [iid]) ?_ ?_
            · intro j hj
              rcases List.mem_append.mp hj with h | h
              · exact h1 j h
              · rw [List.mem_singleton.mp h]
                exact e2
            · rw [List.nodup_append]
              exact ⟨h2, List.nodup_singleton iid,
                fun a ha hb => e3 ((List.mem_singleton.mp hb) ▸ ha)⟩

theorem dedupSources_props (tid : Str) (ids : List Str) :
    (∀ iid ∈ dedupSources tid ids, iid ≠ tid) ∧ (dedupSources tid ids).Nodup :=
  dedup_fold_props tid ids [] (fun _ h => absurd h (List.not_mem_nil _)) List.nodup_nil

theorem filterMap_find_ids (insts : List Instance) :
    ∀ ids : List Str,
      (∀ iid ∈ ids, (insts.find? (fun i => decide (i.id = iid))).isSome = true) →
      (ids.filterMap (fun iid => insts.find? (fun i => decide (i.id = iid)))).map
        (fun s => s.id) = ids
  | [], _ => rfl
  | iid :: rest, hall => by
      obtain ⟨s, hs⟩ := Option.isSome_iff_exists.mp (hall iid (List.mem_cons_self iid rest))
      have hsid : s.id = iid := by simpa using List.find?_some hs
      rw [show (iid :: rest).filterMap
            (fun iid => insts.find? (fun i => decide (i.id = iid))) =
          s :: rest.filterMap (fun iid => insts.find? (fun i => decide (i.id = iid))) from by
        rw [List.filterMap_cons, hs]]
      rw [List.map_cons, hsid,
        filterMap_find_ids insts rest (fun j hj => hall j (List.mem_cons_of_mem iid hj))]

theorem mergeApply_attendance (tid : Str) :
    ∀ (sources : List Instance) (st : MergeState),
      (sources.foldl (mergeApplySource tid) st).attendance =
        mergeMany (fun r : Attendance => r.rid) (fun r => r.instance_id)
          (fun r => r.date) (fun r t => { r with instance_id := t })
          st.attendance (sources.map (fun s => s.id)) tid
  | [], _ => rfl
  | src :: rest, st => by
      rw [List.foldl_cons, List.map_cons, mergeMany_cons]
      exact mergeApply_attendance tid rest _

theorem mergeApply_locks (tid : Str) :
    ∀ (sources : List Instance) (st : MergeState),
      (sources.foldl (mergeApplySource tid) st).locks =
        mergeMany (fun r : AttendanceLock => r.rid) (fun r => r.instance_id)
          (fun r => (r.year, r.month)) (fun r t => { r with instance_id := t })
          st.locks (sources.map (fun s => s.id)) tid
  | [], _ => rfl
  | src :: rest, st => by
      rw [List.foldl_cons, List.map_cons, mergeMany_cons]
      exact mergeApply_locks tid rest _

theorem mergeApply_instances (tid : Str) :
    ∀ (sources : List Instance) (st : MergeState),
      (sources.foldl (mergeApplySource tid) st).instances =
        sources.foldl (fun li src => li.map (fun i =>
          if decide (i.id = src.id) then { i with profile_instance_id := some tid }
          else i)) st.instances
  | [], _ => rfl
  | src :: rest, st => by
      rw [List.foldl_cons, List.foldl_cons]
      exact mergeApply_instances tid rest _

theorem profile_fold_keeps (tid : Str) :
    ∀ (sources : List Instance) (li : List Instance) (x : Instance),
      x ∈ li → (∀ s ∈ sources, x.id ≠ s.id) →
      x ∈ sources.foldl (fun li src => li.map (fun i =>
        if decide (i.id = src.id) then { i with profile_instance_id := some tid }
        else i)) li
  | [], _, _, hx, _ => hx
  | src :: rest, li, x, hx, hne => by
      rw [List.foldl_cons]
      exact profile_fold_keeps tid rest _ x
        (List.mem_map.mpr ⟨x, hx,
          by rw [if_neg (by simpa using hne src (List.mem_cons_self src rest))]⟩)
        (fun s hs => hne s (List.mem_cons_of_mem src hs))

theorem profile_fold_mem (tid : Str) :
    ∀ (sources : List Instance) (li : List Instance) (i : Instance),
      i ∈ li → i.id ∈ sources.map (fun s => s.id) →
      (sources.map (fun s => s.id)).Nodup →
      { i with profile_instance_id := some tid } ∈
        sources.foldl (fun li src => li.map (fun i =>
          if decide (i.id = src.id) then { i with profile_instance_id := some tid }
          else i)) li
  | [], _, _, _, hin, _ => absurd hin (List.not_mem_nil _)
  | src :: rest, li, i, hi, hin, hnd => by
      rw [List.foldl_cons]
      rw [List.map_cons] at hin hnd
      rcases List.mem_cons.mp hin with heq | hin'
      · refine profile_fold_keeps tid rest _ _
          (List.mem_map.mpr ⟨i, hi, by rw [if_pos (by simpa using heq)]⟩) ?_
        intro s hs hcon
        have hcon' : i.id = s.id := hcon
        exact (List.nodup_cons.mp hnd).1
          (heq ▸ hcon' ▸ List.mem_map.mpr ⟨s, hs, rfl⟩)
      · have hne : i.id ≠ src.id := by
          intro h
          exact (List.nodup_cons.mp hnd).1 (h ▸ hin')
        exact profile_fold_mem tid rest _ i
          (List.mem_map.mpr ⟨i, hi, by rw [if_neg (by simpa using hne)]⟩)
          hin' (List.nodup_cons.mp hnd).2

theorem merge_instances_ok_elim (st : MergeState) (tid : Str) (sids : List Str)
    (st' : MergeState) (n : Nat)
    (hok : merge_instances st tid sids = .ok (st', n)) :
    ∃ target,
      st.instances.find? (fun i => decide (i.id = pyStrip tid)) = some target ∧
      target.id = pyStrip tid ∧
      (∀ iid ∈ dedupSources (pyStrip tid) sids,
        (st.instances.find? (fun i => decide (i.id = iid))).isSome = true) ∧
      st' = ((dedupSources (pyStrip tid) sids).filterMap
          (fun iid => st.instances.find? (fun i => decide (i.id = iid)))).foldl
        (mergeApplySource target.id) st := by
  unfold merge_instances at hok
  dsimp only [] at hok
  split at hok
  · cases hok
  · split at hok
    · cases hok
    · next target hfi =>
      split at hok
      · cases hok
      · split at hok
        · cases hok
        · split at hok
          · cases hok
          · next hmiss =>
            split at hok
            · cases hok
            · split at hok
              · cases hok
              · rw [Except.ok.injEq, Prod.mk.injEq] at hok
                refine ⟨target, hfi, by simpa using List.find?_some hfi, ?_, hok.1.symm⟩
                intro iid hin
                by_contra hcon
                apply hmiss
                rw [List.any_eq_true]
                refine ⟨iid, hin, ?_⟩
                simp only [Option.isNone_iff_eq_none]
                rcases h : st.instances.find? (fun i => decide (i.id = iid)) with _ | v
                · exact h
                · rw [h] at hcon
                  simp at hcon

/-- C7 (merge invariant, read date-wise as the spec states it): after a
successful `merge_instances`, (A) every attendance row the target already
had is retained unchanged; (B) for every date present in both a source
and the target, the source's row is discarded (its rid is gone from the
table); (C) every date present in a source is afterwards present at the
target; (C') a source row whose date occurs in no other source row and
not at the target is moved to the target as-is; and (D) every merged
source instance ends with `profile_instance_id` equal to the target's
id.  Hypotheses: attendance rids are pairwise distinct and at most one
row exists per `(instance, date)`, the table invariants the schema's
primary key and upsert logic maintain. -/
theorem merge_invariant_spec (st : MergeState) (tid : Str) (sids : List Str)
    (st' : MergeState) (n : Nat)
    (hok : merge_instances st tid sids = .ok (st', n))
    (hrid : List.Pairwise (fun a b : Attendance => a.rid ≠ b.rid) st.attendance)
    (huniq : ∀ r ∈ st.attendance, ∀ r' ∈ st.attendance,
      r.instance_id = r'.instance_id → r.date = r'.date → r.rid = r'.rid) :
    (∀ r ∈ st.attendance, r.instance_id = pyStrip tid → r ∈ st'.attendance) ∧
    (∀ r ∈ st.attendance, r.instance_id ∈ dedupSources (pyStrip tid) sids →
      (∃ t ∈ st.attendance, t.instance_id = pyStrip tid ∧ t.date = r.date) →
      ∀ x ∈ st'.attendance, x.rid ≠ r.rid) ∧
    (∀ r ∈ st.attendance, r.instance_id ∈ dedupSources (pyStrip tid) sids →
      ∃ x ∈ st'.attendance, x.instance_id = pyStrip tid ∧ x.date = r.date) ∧
    (∀ r ∈ st.attendance, r.instance_id ∈ dedupSources (pyStrip tid) sids →
      (∀ r' ∈ st.attendance, r'.instance_id ∈ dedupSources (pyStrip tid) sids →
        r'.date = r.date → r' = r) →
      (¬ ∃ t ∈ st.attendance, t.instance_id = pyStrip tid ∧ t.date = r.date) →
      { r with instance_id := pyStrip tid } ∈ st'.attendance) ∧
    (∀ i ∈ st.instances, i.id ∈ dedupSources (pyStrip tid) sids →
      { i with profile_instance_id := some (pyStrip tid) } ∈ st'.instances) := by
  obtain ⟨target, hfi, htid, hall, hst'⟩ := merge_instances_ok_elim st tid sids st' n hok
  subst hst'
  have hids := filterMap_find_ids st.instances (dedupSources (pyStrip tid) sids) hall
  have hprops := dedupSources_props (pyStrip tid) sids
  have hnotin : pyStrip tid ∉ dedupSources (pyStrip tid) sids :=
    fun h => hprops.1 _ h rfl
  have Hr : ∀ (r : Attendance) (t : Str),
      ({ r with instance_id := t } : Attendance).rid = r.rid := fun _ _ => rfl
  have Hk : ∀ (r : Attendance) (t : Str),
      ({ r with instance_id := t } : Attendance).date = r.date := fun _ _ => rfl
  have Hi : ∀ (r : Attendance) (t : Str),
      ({ r with instance_id := t } : Attendance).instance_id = t := fun _ _ => rfl
  have huq : ∀ x ∈ st.attendance, ∀ y ∈ st.attendance,
      x.instance_id = y.instance_id → x.instance_id ≠ pyStrip tid →
      x.date = y.date → x.rid = y.rid :=
    fun x hx y hy hxy _ hk => huniq x hx y hy hxy hk
  refine ⟨?_, ?_, ?_, ?_, ?_⟩
  · intro r hr hri
    rw [mergeApply_attendance, hids, htid]
    exact mergeMany_keeps_tgt Hr (pyStrip tid) _ _ r hrid hnotin hr hri
  · intro r hr hin ht
    rw [mergeApply_attendance, hids, htid]
    exact mergeMany_drop Hr (pyStrip tid) _ _ r hrid hnotin hr hin ht
  · intro r hr hin
    rw [mergeApply_attendance, hids, htid]
    exact mergeMany_present Hr Hk Hi (pyStrip tid) _ _ r hrid hnotin huq hr hin
  · intro r hr hin honly hnt
    rw [mergeApply_attendance, hids, htid]
    exact mergeMany_move Hr Hk Hi (pyStrip tid) _ _ r hrid hnotin huq hr hin honly hnt
  · intro i hi hin
    rw [mergeApply_instances, htid]
    exact profile_fold_mem (pyStrip tid) _ _ i hi (by rw [hids]; exact hin)
      (by rw [hids]; exact hprops.2)

/-- Witness for C7: merging source `i6` into target `i1` where both hold a
row for 2026-01-01 and only the source holds one for 2026-01-02: the
target's 01-01 row is retained, the source's 01-01 row is discarded, the
01-02 row is moved, and the source's profile points at the target. -/
theorem merge_invariant_spec_witness :
    attRow1 ∈ mergeResFix.attendance ∧
    (∀ x ∈ mergeResFix.attendance, x.rid ≠ attRow2.rid) ∧
    (∃ x ∈ mergeResFix.attendance,
      x.instance_id = pyStrip (("i1").data) ∧ x.date = attRow3.date) ∧
    { attRow3 with instance_id := pyStrip (("i1").data) } ∈ mergeResFix.attendance ∧
    { srcInst7 with profile_instance_id := some (pyStrip (("i1").data)) } ∈
      mergeResFix.instances :=
  have h := merge_invariant_spec mergeStFix (("i1").data) [("i6").data] mergeResFix 1
    rfl (by decide) (by decide)
  ⟨h.1 attRow1 (by decide) (by decide),
   h.2.1 attRow2 (by decide) (by decide) ⟨attRow1, by decide, by decide, by decide⟩,
   h.2.2.1 attRow3 (by decide) (by decide),
   h.2.2.2.1 attRow3 (by decide) (by decide) (by decide) (by decide),
   h.2.2.2.2 srcInst7 (by decide) (by decide)⟩

end Dagmar
